import Mathlib

/-!
CircleOne, browser-side scripts (static/js/search.js, main.js, forms.js).

A shallow embedding of the `DirectorySearch` and `SearchAutocomplete`
classes, the theme toggles, `FormValidator.validateField` and
`FileUploadValidator`, with proofs about them.  JavaScript strings are Lean
strings; the DOM nodes the code touches are records holding exactly the
properties it reads and writes; a method is a function from the instance
state to an outcome, the state it leaves behind together with the exception
it raised, if any.  String.prototype.toLowerCase is taken from the engine
(`JsEngine`): the theorems hold on every engine, and the examples are
evaluated on one that lower-cases Latin-1 and Greek text.
-/

namespace CircleOne

/-! ## JavaScript strings -/

/-- The engine the scripts run on, as far as they depend on it:
String.prototype.toLowerCase.  The definitions below take the function from
the engine and the proofs use one fact about it: only the empty string
lower-cases to the empty string. -/
class JsEngine where
  toLowerCase : String → String
  toLowerCase_eq_empty : ∀ s : String, toLowerCase s = "" ↔ s = ""

open JsEngine (toLowerCase toLowerCase_eq_empty)

/-- Substring search on character lists: does `t` occur in `s` as a
contiguous block. -/
def includesChars : List Char → List Char → Bool
  | [], t => t.isEmpty
  | c :: cs, t => t.isPrefixOf (c :: cs) || includesChars cs t

/-- String.prototype.includes: `includes s t` is `s.includes(t)`. -/
def includes (s t : String) : Bool := includesChars s.data t.data

/-- Reading `x?.toLowerCase() || ''` for an attribute or property `x` that
may be undefined. -/
def lowerOrEmpty [JsEngine] : Option String → String
  | none => ""
  | some s => if toLowerCase s != "" then toLowerCase s else ""

/-! ## JavaScript objects with string values -/

/-- An object whose properties hold strings: a property read gives `none`
for `undefined`. -/
abbrev JsObject := String → Option String

/-- The object literal with no property. -/
def JsObject.empty : JsObject := fun _ => none

/-- The assignment `o[k] = v`. -/
def JsObject.set (o : JsObject) (k v : String) : JsObject :=
  fun k' => if k' = k then some v else o k'

/-! ## The DOM nodes and the instance state -/

/-- The exceptions the classes can raise: reading a property of `null` or
`undefined`, and compiling a pattern that is no regular expression. -/
inductive JsError where
  | typeError
  | syntaxError
  deriving DecidableEq, Repr

/-- A `.business-card` or `.professional-card` element: its text content,
its four optional data attributes and its `style.display`. -/
structure CardElement where
  textContent : String
  dataCategory : Option String
  dataLocation : Option String
  dataSkills : Option String
  dataRole : Option String
  display : String
  deriving DecidableEq, Repr

/-- One entry of `originalResults`. -/
structure ListingRecord where
  element : CardElement
  text : String
  category : String
  location : String
  skills : String
  role : String
  deriving DecidableEq, Repr

/-- A `.no-results-instant` node of the results area: its `style.display`. -/
structure NoResultsNode where
  display : String
  deriving DecidableEq, Repr

/-- The element `containerSelector` resolves to: whether its class list
holds `professionals-page`. -/
structure Container where
  professionalsPage : Bool
  deriving DecidableEq, Repr

/-- The element `resultsSelector` resolves to: its `.no-results-instant`
descendants in document order (the cards live in the snapshot). -/
structure ResultsContainer where
  noResultsInstant : List NoResultsNode
  deriving DecidableEq, Repr

/-- The `.results-info` element of the document: the text of its first
`p` descendant, `none` when it has no such descendant. -/
structure ResultsInfo where
  p : Option String
  deriving DecidableEq, Repr

/-- A `DirectorySearch` instance together with the part of the document it
reads and writes.  `searchInput` is the value of the search input,
`filters` the entries of `this.filters` (name and current value of each
filter element), `originalResults` is `none` while the property is
undefined. -/
structure DirectorySearch where
  container : Option Container
  resultsContainer : Option ResultsContainer
  searchInput : Option String
  filters : List (String × String)
  originalResults : Option (List ListingRecord)
  resultsInfo : Option ResultsInfo
  deriving DecidableEq, Repr

/-- What a method call leaves behind: the state, and the exception when the
call threw (the state is then the one reached at the throw). -/
structure Outcome where
  state : DirectorySearch
  error : Option JsError
  deriving DecidableEq, Repr

/-- Sequencing of two statements: the second runs only when the first did
not throw. -/
def Outcome.andThen (o : Outcome) (f : DirectorySearch → Outcome) : Outcome :=
  match o.error with
  | some _ => o
  | none => f o.state

/-! ## DirectorySearch -/

/-- The map callback of `storeOriginalResults`. -/
def toRecord [JsEngine] (item : CardElement) : ListingRecord :=
  { element := item
    text := toLowerCase item.textContent
    category := lowerOrEmpty item.dataCategory
    location := lowerOrEmpty item.dataLocation
    skills := lowerOrEmpty item.dataSkills
    role := lowerOrEmpty item.dataRole }

/-- The array `storeOriginalResults` builds from the cards
`querySelectorAll` returned. -/
def storeOriginalResults [JsEngine] (items : List CardElement) : List ListingRecord :=
  items.map toRecord

/-- The local `searchTerm` of `filterResults`. -/
def searchTermOf [JsEngine] (ds : DirectorySearch) : String :=
  lowerOrEmpty ds.searchInput

/-- The local `filterValues` of `filterResults`, filled entry by entry. -/
def filterValuesOf [JsEngine] (ds : DirectorySearch) : JsObject :=
  ds.filters.foldl (fun o entry => o.set entry.1 (toLowerCase entry.2)) JsObject.empty

/-- The value of `visible` at the end of the loop body of `filterResults`
for one record. -/
def isVisible (searchTerm : String) (filterValues : JsObject) (result : ListingRecord) : Bool :=
  let visible := true
  let visible :=
    if searchTerm != "" && !(includes result.text searchTerm) then false else visible
  let visible :=
    match filterValues "category" with
    | some category =>
      if category != "" && category != "" && result.category != category then false else visible
    | none => visible
  let visible :=
    match filterValues "location" with
    | some location =>
      if location != "" && location != "" && !(includes result.location location) then false
      else visible
    | none => visible
  let visible :=
    match filterValues "skill" with
    | some skill =>
      if skill != "" && skill != "" && !(includes result.skills skill) then false else visible
    | none => visible
  visible

/-- The record with `style.display` of its element assigned. -/
def setDisplay (result : ListingRecord) (d : String) : ListingRecord :=
  { result with element := { result.element with display := d } }

/-- The `forEach` of `filterResults`: the records with their elements shown
or hidden, and `visibleCount`, starting from the count given. -/
def filterLoop (searchTerm : String) (filterValues : JsObject) :
    List ListingRecord → Nat → List ListingRecord × Nat
  | [], visibleCount => ([], visibleCount)
  | result :: rest, visibleCount =>
    if isVisible searchTerm filterValues result then
      let out := filterLoop searchTerm filterValues rest (visibleCount + 1)
      (setDisplay result "" :: out.1, out.2)
    else
      let out := filterLoop searchTerm filterValues rest visibleCount
      (setDisplay result "none" :: out.1, out.2)

/-- The method `updateResultsCount`. -/
def updateResultsCount (ds : DirectorySearch) (count : Nat) : Outcome :=
  match ds.resultsInfo with
  | none => ⟨ds, none⟩
  | some resultsInfo =>
    let _plural := if count != 1 then "s" else ""
    match ds.container with
    | none => ⟨ds, some JsError.typeError⟩
    | some container =>
      let type := if container.professionalsPage then "professional" else "business"
      match resultsInfo.p with
      | none => ⟨ds, some JsError.typeError⟩
      | some _ =>
        let text := "Found " ++ toString count ++ " " ++ type ++ (if count != 1 then "es" else "")
        ⟨{ ds with resultsInfo := some { resultsInfo with p := some text } }, none⟩

/-- The method `toggleNoResults`. -/
def toggleNoResults (ds : DirectorySearch) (shw : Bool) : Outcome :=
  match ds.resultsContainer with
  | none => ⟨ds, some JsError.typeError⟩
  | some rc =>
    match rc.noResultsInstant with
    | [] =>
      if shw then
        ⟨{ ds with resultsContainer := some { rc with noResultsInstant := [⟨"block"⟩] } }, none⟩
      else ⟨ds, none⟩
    | noResults :: others =>
      if shw then
        let nodes := { noResults with display := "block" } :: others
        ⟨{ ds with resultsContainer := some { rc with noResultsInstant := nodes } }, none⟩
      else
        let nodes := { noResults with display := "none" } :: others
        ⟨{ ds with resultsContainer := some { rc with noResultsInstant := nodes } }, none⟩

/-- The method `filterResults`. -/
def filterResults [JsEngine] (ds : DirectorySearch) : Outcome :=
  let searchTerm := searchTermOf ds
  let filterValues := filterValuesOf ds
  match ds.originalResults with
  | none => ⟨ds, some JsError.typeError⟩
  | some results =>
    let out := filterLoop searchTerm filterValues results 0
    (updateResultsCount { ds with originalResults := some out.1 } out.2).andThen
      (fun ds' => toggleNoResults ds' (out.2 == 0))

/-- The assignments of `clearFilters`: the search input, when there is one,
and every filter element get the empty string as value. -/
def clearInputs (ds : DirectorySearch) : DirectorySearch :=
  let ds :=
    match ds.searchInput with
    | some _ => { ds with searchInput := some "" }
    | none => ds
  { ds with filters := ds.filters.map (fun entry => (entry.1, "")) }

/-- The method `clearFilters`. -/
def clearFilters [JsEngine] (ds : DirectorySearch) : Outcome :=
  filterResults (clearInputs ds)

/-- The instance after the user typed `query` into the search input. -/
def DirectorySearch.withQuery (ds : DirectorySearch) (query : String) : DirectorySearch :=
  { ds with searchInput := some query }

/-- The `style.display` of the element of snapshot entry `i`. -/
def DirectorySearch.displayOf (ds : DirectorySearch) (i : Nat) : Option String :=
  match ds.originalResults with
  | none => none
  | some results => (results.get? i).map (fun r => r.element.display)

/-- What the loop body leaves of one record. -/
def render (searchTerm : String) (filterValues : JsObject) (result : ListingRecord) :
    ListingRecord :=
  setDisplay result (if isVisible searchTerm filterValues result then "" else "none")

/-- The instance with the given records as `originalResults`. -/
def DirectorySearch.withResults (ds : DirectorySearch) (rs : List ListingRecord) :
    DirectorySearch :=
  { ds with originalResults := some rs }

/-! ## Sequences of passes -/

/-- The number of snapshot items whose display is cleared. -/
def DirectorySearch.shownCount (ds : DirectorySearch) : Nat :=
  match ds.originalResults with
  | none => 0
  | some results => results.countP (fun r => r.element.display == "")

/-- The document lets `updateResultsCount` run through: there is no
`.results-info` element, or there is one with a `p` inside and the container
was found. -/
def DirectorySearch.reportReady (ds : DirectorySearch) : Bool :=
  match ds.resultsInfo with
  | none => true
  | some resultsInfo => ds.container.isSome && resultsInfo.p.isSome

/-- The instance after the user edited the search input and the filter
elements. -/
def DirectorySearch.withInputs (ds : DirectorySearch) (query : Option String)
    (filters : List (String × String)) : DirectorySearch :=
  { ds with searchInput := query, filters := filters }

/-- The outcomes of successive filter passes, each one run after the user set
the inputs to the next element of the list. -/
def passes [JsEngine] (ds : DirectorySearch) :
    List (Option String × List (String × String)) → List Outcome
  | [] => []
  | inputs :: rest =>
    let out := filterResults (ds.withInputs inputs.1 inputs.2)
    out :: passes out.state rest

/-- The instance after the user changed the value of every filter element
called `name` to `value`. -/
def DirectorySearch.setFilterValue (ds : DirectorySearch) (name value : String) :
    DirectorySearch :=
  { ds with
    filters := ds.filters.map (fun entry => if entry.1 = name then (entry.1, value) else entry) }

/-! ## The engine of the examples -/

/-- Simple lower-case mappings of the Unicode Character Database for the code
points below U+0100 and the Greek letters U+0386 to U+03CE: the code points
from the first to the second component map to the third component onward. -/
def lowerRanges : List (Nat × Nat × Nat) :=
  [(0x41, 0x5A, 0x61), (0xC0, 0xD6, 0xE0), (0xD8, 0xDE, 0xF8), (0x386, 0x386, 0x3AC),
   (0x388, 0x38A, 0x3AD), (0x38C, 0x38C, 0x3CC), (0x38E, 0x38F, 0x3CD), (0x391, 0x3A1, 0x3B1),
   (0x3A3, 0x3AB, 0x3C3)]

/-- The code points of that part of Unicode with the property Cased. -/
def casedRanges : List (Nat × Nat) :=
  [(0x41, 0x5A), (0x61, 0x7A), (0xAA, 0xAA), (0xB5, 0xB5), (0xBA, 0xBA), (0xC0, 0xD6),
   (0xD8, 0xF6), (0xF8, 0xFF), (0x386, 0x386), (0x388, 0x38A), (0x38C, 0x38C), (0x38E, 0x3A1),
   (0x3A3, 0x3CE)]

/-- The code points of that part of Unicode with the property Case_Ignorable. -/
def caseIgnorableRanges : List (Nat × Nat) :=
  [(0x27, 0x27), (0x2E, 0x2E), (0x3A, 0x3A), (0x5E, 0x5E), (0x60, 0x60), (0xA8, 0xA8),
   (0xAD, 0xAD), (0xAF, 0xAF), (0xB4, 0xB4), (0xB7, 0xB8), (0x387, 0x387)]

/-- Membership of a character in a list of ranges of code points. -/
def inRanges (ranges : List (Nat × Nat)) (c : Char) : Bool :=
  ranges.any (fun r => decide (r.1 ≤ c.toNat) && decide (c.toNat ≤ r.2))

/-- The lower-case form of one character out of context. -/
def simpleLower (c : Char) : Char :=
  match lowerRanges.find? (fun r => decide (r.1 ≤ c.toNat) && decide (c.toNat ≤ r.2.1)) with
  | some r => Char.ofNat (r.2.2 + (c.toNat - r.1))
  | none => c

/-- Going through the characters on one side of a capital sigma, nearest
first: the case-ignorable ones are passed over and the first other one is
cased. -/
def nextIsCased : List Char → Bool
  | [] => false
  | c :: cs => if inRanges caseIgnorableRanges c then nextIsCased cs else inRanges casedRanges c

/-- Lower-casing of the characters that follow `before` (nearest first): each
one by its simple mapping, but a capital sigma becomes a final sigma when a
cased letter precedes it and none follows it. -/
def lowerFrom (before : List Char) : List Char → List Char
  | [] => []
  | c :: after =>
    (if c = 'Σ' then (if nextIsCased before && !nextIsCased after then 'ς' else 'σ')
      else simpleLower c) :: lowerFrom (c :: before) after

/-- String.prototype.toLowerCase on strings of code points below U+0100 and
Greek letters from U+0386 to U+03CE (other characters are left as they are). -/
def exampleLower (s : String) : String := ⟨lowerFrom [] s.data⟩

/-- The engine the examples are evaluated on. -/
instance exampleEngine : JsEngine where
  toLowerCase := exampleLower
  toLowerCase_eq_empty := by
    intro s
    cases s with
    | mk cs =>
      cases cs with
      | nil => exact ⟨fun _ => rfl, fun _ => rfl⟩
      | cons c cs =>
        constructor
        · intro h
          have h2 := congrArg String.data h
          simp [exampleLower, lowerFrom] at h2
        · intro h
          have h2 := congrArg String.data h
          simp at h2

/-! ## Concrete pages -/

/-- A page state around a list of cards and filter entries: container and
results area present, empty search input, a results-info paragraph. -/
def pageOf (professionals : Bool) (query : String) (filters : List (String × String))
    (items : List CardElement) : DirectorySearch :=
  { container := some ⟨professionals⟩
    resultsContainer := some ⟨[]⟩
    searchInput := some query
    filters := filters
    originalResults := some (storeOriginalResults items)
    resultsInfo := some ⟨some ""⟩ }

/-- Three business cards: category bakery, category bakery cafe, no category. -/
def categoryItems : List CardElement :=
  [⟨"Sweet Rolls", some "bakery", some "Denver", none, none, ""⟩,
   ⟨"Crumb and Cup", some "Bakery Cafe", some "Austin", none, none, ""⟩,
   ⟨"Corner Shop", none, none, none, none, ""⟩]

/-- The business page of `categoryItems` with the category filter on `Bakery`. -/
def categoryPage : DirectorySearch :=
  pageOf false "" [("category", "Bakery"), ("location", "")] categoryItems

/-- The business page of `categoryItems` with the location filter on `Den`. -/
def locationPage : DirectorySearch :=
  pageOf false "" [("category", ""), ("location", "Den")] categoryItems

/-- Two professional cards with skills and a role. -/
def professionalItems : List CardElement :=
  [⟨"Ada, designer", none, none, some "Figma, CSS", some "designer", ""⟩,
   ⟨"Lin, developer", none, none, some "Rust, Lean", some "developer", ""⟩]

/-- The professionals page with the skill filter on `lean`. -/
def skillPage : DirectorySearch :=
  pageOf true "" [("skill", "lean"), ("role", "")] professionalItems

/-- The professionals page with the role filter on `developer` and nothing
else set. -/
def rolePage : DirectorySearch :=
  pageOf true "" [("skill", ""), ("role", "developer")] professionalItems

/-- The example of the specification: two bakeries, one in Denver and one
in Austin, with the category filter on `bakery` and the location filter on
`den`. -/
def bakeryItems : List CardElement :=
  [⟨"Sweet Rolls", some "bakery", some "denver", none, none, ""⟩,
   ⟨"Crumb and Cup", some "bakery", some "austin", none, none, ""⟩]

/-- The page of `bakeryItems` with both filters set and the query given. -/
def bakeryPage (query : String) : DirectorySearch :=
  pageOf false query [("category", "bakery"), ("location", "den")] bakeryItems

/-- A page in an arbitrary earlier state: a query, filter values, one card
hidden, a stale count. -/
def usedPage : DirectorySearch :=
  { container := some ⟨false⟩
    resultsContainer := some ⟨[⟨"block"⟩]⟩
    searchInput := some "zebra"
    filters := [("category", "florist"), ("location", "Reno")]
    originalResults := some ((storeOriginalResults bakeryItems).map (fun r => setDisplay r "none"))
    resultsInfo := some ⟨some "Found 0 businesses"⟩ }

/-- The professionals page with nothing set and the query given. -/
def professionalsPage (query : String) : DirectorySearch :=
  pageOf true query [("skill", ""), ("role", "")] professionalItems

/-! ## Construction of a DirectorySearch -/

/-- The document as the constructor finds it: what each selector resolves
to.  `cards` are the card elements inside the results element,
`filterElements` holds, for each selector of `filterSelectors`, the name and
value of the element found, `none` when the selector matches nothing. -/
structure Document where
  container : Option Container
  resultsContainer : Option ResultsContainer
  cards : List CardElement
  searchInput : Option String
  filterElements : List (Option (String × String))
  resultsInfo : Option ResultsInfo
  deriving DecidableEq, Repr

/-- The assignment `this.filters[filterName] = element`: an entry of that
name is replaced, a new name is added last. -/
def assignFilter (filters : List (String × String)) (name value : String) :
    List (String × String) :=
  if filters.any (fun entry => entry.1 == name) then
    filters.map (fun entry => if entry.1 = name then (name, value) else entry)
  else filters ++ [(name, value)]

/-- The method `storeOriginalResults`, on the cards of the results element. -/
def storeOriginalResultsIn [JsEngine] (ds : DirectorySearch) (cards : List CardElement) : Outcome :=
  match ds.resultsContainer with
  | none => ⟨ds, some JsError.typeError⟩
  | some _ => ⟨{ ds with originalResults := some (storeOriginalResults cards) }, none⟩

/-- The method `init`; the listeners it adds hold no state. -/
def init [JsEngine] (ds : DirectorySearch) (cards : List CardElement) : Outcome :=
  match ds.container with
  | none => ⟨ds, none⟩
  | some _ => storeOriginalResultsIn ds cards

/-- The constructor of `DirectorySearch`. -/
def newDirectorySearch [JsEngine] (doc : Document) : Outcome :=
  let filters := doc.filterElements.foldl
    (fun filters element =>
      match element with
      | some (name, value) => assignFilter filters name value
      | none => filters) []
  init
    { container := doc.container
      resultsContainer := doc.resultsContainer
      searchInput := doc.searchInput
      filters := filters
      originalResults := none
      resultsInfo := doc.resultsInfo } doc.cards

/-- The method `handleFilterChange`. -/
def handleFilterChange [JsEngine] (ds : DirectorySearch) : Outcome :=
  filterResults ds

/-- A document whose container selector matches nothing. -/
def noContainerDocument : Document :=
  { container := none
    resultsContainer := some ⟨[]⟩
    cards := bakeryItems
    searchInput := some ""
    filterElements := [some ("category", ""), none]
    resultsInfo := some ⟨some ""⟩ }

/-- A document whose results selector matches nothing. -/
def noResultsDocument : Document :=
  { container := some ⟨false⟩
    resultsContainer := none
    cards := []
    searchInput := some ""
    filterElements := [some ("category", "")]
    resultsInfo := some ⟨some ""⟩ }

/-! ## The debounce timer of the search input -/

/-- The timer side of a `DirectorySearch`: the clock in milliseconds, the
timers the browser holds pending (identifier and due time), the next
identifier `setTimeout` hands out, the property `debounceTimer`, and the
times at which the timer callback ran `filterResults`. -/
structure Debounce where
  clock : Nat
  timers : List (Nat × Nat)
  nextId : Nat
  debounceTimer : Option Nat
  passes : List Nat
  deriving DecidableEq, Repr

/-- The call `clearTimeout(id)`: a pending timer of that identifier is dropped,
any other argument does nothing. -/
def clearTimeout (s : Debounce) (id : Option Nat) : Debounce :=
  { s with timers := s.timers.filter (fun timer => some timer.1 != id) }

/-- The call `setTimeout(callback, delay)` with the callback of
`handleSearchInput`: the new timer is due `delay` after now; the identifier is
returned. -/
def setTimeout (s : Debounce) (delay : Nat) : Debounce × Nat :=
  ({ s with timers := s.timers ++ [(s.nextId, s.clock + delay)], nextId := s.nextId + 1 },
    s.nextId)

/-- The method `handleSearchInput`. -/
def handleSearchInput (s : Debounce) : Debounce :=
  let s := clearTimeout s s.debounceTimer
  let out := setTimeout s 300
  { out.1 with debounceTimer := some out.2 }

/-- Time passes until `t`: every pending timer due by then fires at its due
time, its callback runs `filterResults`, and the timer is gone. -/
def elapse (s : Debounce) (t : Nat) : Debounce :=
  { s with
    clock := max s.clock t
    timers := s.timers.filter (fun timer => !decide (timer.2 ≤ t))
    passes := s.passes ++ (s.timers.filter (fun timer => decide (timer.2 ≤ t))).map Prod.snd }

/-- An input event at time `t`. -/
def inputAt (s : Debounce) (t : Nat) : Debounce :=
  handleSearchInput (elapse s t)

/-- Further input events, each one `gap` milliseconds after the one before. -/
def burst (s : Debounce) (gaps : List Nat) : Debounce :=
  gaps.foldl (fun s gap => inputAt s (s.clock + gap)) s

/-- The timer side of a fresh instance at time `t`. -/
def Debounce.fresh (t : Nat) : Debounce :=
  { clock := t, timers := [], nextId := 0, debounceTimer := none, passes := [] }

/-- The one timer of `handleSearchInput` is pending, due 300ms after `a`. -/
def Debounce.armedAt (s : Debounce) (a : Nat) : Prop :=
  s.clock = a ∧ ∃ id, s.timers = [(id, a + 300)] ∧ s.debounceTimer = some id

/-- At most one timer is pending, and it is the one `debounceTimer` names. -/
def Debounce.singleFlight (s : Debounce) : Prop :=
  s.timers = [] ∨ ∃ id due, s.timers = [(id, due)] ∧ s.debounceTimer = some id

/-! ## SearchAutocomplete -/

/-- The property `length` of a string: its number of UTF-16 code units. -/
def jsLength (s : String) : Nat :=
  (s.data.map (fun c => if c.val < 0x10000 then 1 else 2)).sum

/-- The `.search-suggestions` element: the candidates its `.suggestion-item`
children stand for, in order, and its `style.display`. -/
structure SuggestionsList where
  items : List String
  display : String
  deriving DecidableEq, Repr

/-- A `SearchAutocomplete` whose input was found: the value of the input,
the candidate list and the suggestions element. -/
structure SearchAutocomplete where
  inputValue : String
  suggestions : List String
  suggestionsList : SuggestionsList
  deriving DecidableEq, Repr

/-- What a method of `SearchAutocomplete` leaves behind. -/
structure AutocompleteOutcome where
  state : SearchAutocomplete
  error : Option JsError
  deriving DecidableEq, Repr

/-- The method `hideSuggestions`. -/
def hideSuggestions (sa : SearchAutocomplete) : SearchAutocomplete :=
  { sa with suggestionsList := { sa.suggestionsList with display := "none" } }

/-- The method `showSuggestions`.  For each match `highlightMatch` compiles
the pattern made of the raw input value between parentheses;
`regExpCompiles` stands for the pattern grammar of the engine: whether
`new RegExp(source, 'gi')` returns instead of raising a SyntaxError. -/
def showSuggestions (regExpCompiles : String → Bool) (sa : SearchAutocomplete)
    (results : List String) : AutocompleteOutcome :=
  if results.isEmpty || regExpCompiles ("(" ++ sa.inputValue ++ ")") then
    ⟨{ sa with suggestionsList := { items := results, display := "block" } }, none⟩
  else ⟨sa, some JsError.syntaxError⟩

/-- The method `handleInput`, the event target being the input. -/
def handleInput [JsEngine] (regExpCompiles : String → Bool) (sa : SearchAutocomplete) :
    AutocompleteOutcome :=
  let value := toLowerCase sa.inputValue
  if jsLength value < 2 then ⟨hideSuggestions sa, none⟩
  else
    let results :=
      (sa.suggestions.filter (fun item => includes (toLowerCase item) value)).take 5
    if results.length > 0 then showSuggestions regExpCompiles sa results
    else ⟨hideSuggestions sa, none⟩

/-- An autocomplete over skill names, the user having typed `value`. -/
def skillBox (value : String) : SearchAutocomplete :=
  { inputValue := value
    suggestions := ["C++", "C", "Objective-C++", "CSS", "c++ (embedded)", "C++", "Rust",
      "Modern C++", "Visual C++"]
    suggestionsList := { items := [], display := "" } }

/-! ## Theme toggling (static/js/main.js) -/

/-- The part of the page the theme functions touch: the `data-theme`
attribute of the document element (`none` when absent), the text of the
`.theme-icon` and `.theme-label` elements, and the `theme` key of
localStorage. -/
structure ThemeState where
  dataTheme : Option String
  icons : List String
  labels : List String
  storedTheme : Option String
  deriving DecidableEq, Repr

/-- The function `updateThemeIcon`. -/
def updateThemeIcon (s : ThemeState) : ThemeState :=
  let currentTheme := s.dataTheme
  { s with
    icons := s.icons.map (fun _ => if currentTheme = some "dark" then "☀️" else "🌙")
    labels := s.labels.map (fun _ => if currentTheme = some "dark" then "Light" else "Dark") }

/-- The function `toggleTheme`: the page it leaves and the value returned.
The request that saves the theme is sent and not waited for. -/
def toggleTheme (s : ThemeState) : ThemeState × String :=
  let currentTheme := s.dataTheme
  let newTheme := if currentTheme = some "light" then "dark" else "light"
  let s := { s with dataTheme := some newTheme }
  let s := updateThemeIcon s
  (s, newTheme)

/-- The function `toggleThemeGuest`: the page it leaves and the value
returned. -/
def toggleThemeGuest (s : ThemeState) : ThemeState × String :=
  let currentTheme := s.dataTheme
  let newTheme := if currentTheme = some "light" then "dark" else "light"
  let s := { s with dataTheme := some newTheme }
  let s := updateThemeIcon s
  let s := { s with storedTheme := some newTheme }
  (s, newTheme)

/-! ## FormValidator (static/js/forms.js) -/

/-- The characters String.prototype.trim removes: white space and line
terminators. -/
def isJsWhiteSpace (c : Char) : Bool :=
  let n := c.toNat
  n == 0x9 || n == 0xA || n == 0xB || n == 0xC || n == 0xD || n == 0x20 || n == 0xA0 ||
    n == 0x1680 || (0x2000 ≤ n && n ≤ 0x200A) || n == 0x2028 || n == 0x2029 || n == 0x202F ||
    n == 0x205F || n == 0x3000 || n == 0xFEFF

/-- String.prototype.trim. -/
def trim (s : String) : String :=
  ⟨((s.data.dropWhile isJsWhiteSpace).reverse.dropWhile isJsWhiteSpace).reverse⟩

/-- A form field: its value, whether it has the `required` attribute, what
`parseInt` reads from its `minlength` and `maxlength` attributes (`none`
without the attribute, `some none` when the attribute holds no number), whether
its class list holds `input-error`, and the text of the
`.field-error-message` elements of its parent, those before the field and
those after it, in document order. -/
structure Field where
  value : String
  required : Bool
  minlength : Option (Option Int)
  maxlength : Option (Option Int)
  inputError : Bool
  errorsBefore : List String
  errorsAfter : List String
  deriving DecidableEq, Repr

/-- The method `clearFieldError`: the class goes, and so does the first
error message of the parent. -/
def clearFieldError (field : Field) : Field :=
  match field.errorsBefore with
  | _ :: others => { field with inputError := false, errorsBefore := others }
  | [] => { field with inputError := false, errorsAfter := field.errorsAfter.tail }

/-- The method `showFieldError`: the message is inserted right after the
field. -/
def showFieldError (field : Field) (message : String) : Field :=
  let field := clearFieldError field
  { field with inputError := true, errorsAfter := message :: field.errorsAfter }

/-- The comparison `length < bound`, false when the bound is no number. -/
def lengthBelow (length : Nat) (bound : Option Int) : Bool :=
  match bound with
  | some n => decide ((length : Int) < n)
  | none => false

/-- The comparison `length > bound`, false when the bound is no number. -/
def lengthAbove (length : Nat) (bound : Option Int) : Bool :=
  match bound with
  | some n => decide ((length : Int) > n)
  | none => false

/-- The text of a number inside a template literal. -/
def numberText (bound : Option Int) : String :=
  match bound with
  | some n => toString n
  | none => "NaN"

/-- The end of `validateField`, from the maximum-length check on. -/
def validateMaximum (field : Field) (value : String) : Field × Bool :=
  match field.maxlength with
  | some maxLength =>
    if lengthAbove (jsLength value) maxLength then
      (showFieldError field ("Maximum " ++ numberText maxLength ++ " characters allowed."), false)
    else (clearFieldError field, true)
  | none => (clearFieldError field, true)

/-- The method `validateField`: the field it leaves and the value returned. -/
def validateField (field : Field) : Field × Bool :=
  let value := trim field.value
  if field.required && value == "" then
    (showFieldError field "This field is required.", false)
  else
    match field.minlength with
    | some minLength =>
      if lengthBelow (jsLength value) minLength then
        (showFieldError field ("Minimum " ++ numberText minLength ++ " characters required."),
          false)
      else validateMaximum field value
    | none => validateMaximum field value

/-- A required field with a minimum length of 3 and a maximum of 5, holding
the given value, with one stale message after it. -/
def nameField (value : String) : Field :=
  { value := value
    required := true
    minlength := some (some 3)
    maxlength := some (some 5)
    inputError := false
    errorsBefore := []
    errorsAfter := ["This field is required."] }

/-! ## FileUploadValidator (static/js/forms.js) -/

/-- The `options` argument of the constructor, for its two keys: `none`
when the object has no such property, `some none` when the property holds
`undefined`, else the number or the array it holds. -/
structure OptionsArgument where
  maxSize : Option (Option Nat)
  allowedTypes : Option (Option (List String))
  deriving DecidableEq, Repr

/-- The property `this.options`: `none` for a key that holds `undefined`. -/
structure UploadOptions where
  maxSize : Option Nat
  allowedTypes : Option (List String)
  deriving DecidableEq, Repr

/-- The object literal assigned to `this.options`: the two defaulted keys
first, then the own properties of `options` spread over them. -/
def effectiveOptions (options : OptionsArgument) : UploadOptions :=
  let maxSize : Nat :=
    match options.maxSize with
    | some (some n) => if n != 0 then n else 5 * 1024 * 1024
    | _ => 5 * 1024 * 1024
  let allowedTypes : List String :=
    match options.allowedTypes with
    | some (some types) => types
    | _ => ["image/png", "image/jpeg", "image/jpg", "image/gif", "image/webp"]
  { maxSize :=
      match options.maxSize with
      | some spread => spread
      | none => some maxSize
    allowedTypes :=
      match options.allowedTypes with
      | some spread => spread
      | none => some allowedTypes }

/-- A file of the input: its size in bytes and its MIME type. -/
structure UploadFile where
  size : Nat
  type : String
  deriving DecidableEq, Repr

/-- The two messages of `validateFile`: the one about the size, which names
the maximum size in megabytes, and the one about the type, which names the
allowed types. -/
inductive UploadMessage where
  | tooLarge (maxSize : Nat)
  | invalidType (allowed : String)
  deriving DecidableEq, Repr

/-- The file input: its value, its files, whether its class list holds
`input-error`, and the `.field-error-message` elements of its parent before
and after it. -/
structure FileInput where
  value : String
  files : List UploadFile
  inputError : Bool
  errorsBefore : List UploadMessage
  errorsAfter : List UploadMessage
  deriving DecidableEq, Repr

/-- A `FileUploadValidator` whose input was found. -/
structure FileUploadValidator where
  input : FileInput
  options : UploadOptions
  deriving DecidableEq, Repr

/-- What `validateFile` leaves behind: the state, the value returned (`none`
for `undefined`), and the exception when the call threw. -/
structure UploadOutcome where
  state : FileUploadValidator
  returned : Option Bool
  error : Option JsError
  deriving DecidableEq, Repr

/-- The constructor of `FileUploadValidator`, the input being found. -/
def newFileUploadValidator (input : FileInput) (options : OptionsArgument) :
    FileUploadValidator :=
  { input := input, options := effectiveOptions options }

/-- The method `clearError`. -/
def clearError (input : FileInput) : FileInput :=
  match input.errorsBefore with
  | _ :: others => { input with inputError := false, errorsBefore := others }
  | [] => { input with inputError := false, errorsAfter := input.errorsAfter.tail }

/-- The method `showError`. -/
def showError (input : FileInput) (message : UploadMessage) : FileInput :=
  let input := clearError input
  { input with errorsAfter := message :: input.errorsAfter, inputError := true }

/-- The piece `t.split('/')[1]` of a type: what stands between the first
slash and the next one, `none` (undefined) without a slash. -/
def secondPiece : List Char → Option (List Char)
  | [] => none
  | c :: cs => if c = '/' then some (cs.takeWhile (fun d => d != '/')) else secondPiece cs

/-- The names `t.split('/')[1].toUpperCase()` of the allowed types; `none`
when one of them has no second piece and the call on `undefined` throws. -/
def allowedNames : List String → Option (List String)
  | [] => some []
  | t :: ts =>
    match secondPiece t.data with
    | none => none
    | some piece =>
      match allowedNames ts with
      | none => none
      | some names => some (String.mk (piece.map Char.toUpper) :: names)

/-- The end of `validateFile`, from the type check on. -/
def validateType (v : FileUploadValidator) (file : UploadFile) : UploadOutcome :=
  match v.options.allowedTypes with
  | none => ⟨v, none, some JsError.typeError⟩
  | some allowedTypes =>
    if !allowedTypes.contains file.type then
      match allowedNames allowedTypes with
      | none => ⟨v, none, some JsError.typeError⟩
      | some names =>
        let input := showError v.input (UploadMessage.invalidType (", ".intercalate names))
        ⟨{ v with input := { input with value := "" } }, some false, none⟩
    else ⟨{ v with input := clearError v.input }, some true, none⟩

/-- The method `validateFile`, the event target being the input. -/
def validateFile (v : FileUploadValidator) : UploadOutcome :=
  match v.input.files.head? with
  | none => ⟨v, none, none⟩
  | some file =>
    match v.options.maxSize with
    | some maxSize =>
      if file.size > maxSize then
        let input := showError v.input (UploadMessage.tooLarge maxSize)
        ⟨{ v with input := { input with value := "" } }, some false, none⟩
      else validateType v file
    | none => validateType v file

/-- A file input holding one chosen file. -/
def logoInput (file : UploadFile) : FileInput :=
  { value := "C:\\fakepath\\logo"
    files := [file]
    inputError := false
    errorsBefore := []
    errorsAfter := [] }

/-- One card whose text is a Greek name in capitals. -/
def odysseyItems : List CardElement :=
  [⟨"ΟΔΥΣΣΕΑΣ", none, none, none, none, ""⟩]

/-- The business page of `odysseyItems` with no filter element. -/
def odysseyPage : DirectorySearch :=
  pageOf false "" [] odysseyItems

/-- The bakery page with a `.results-info` element that holds no `p`, the
query matching no card. -/
def noParagraphPage : DirectorySearch :=
  { bakeryPage "zebra" with resultsInfo := some ⟨none⟩ }

/-- A validator whose allowed types hold one type without a slash, an image
being chosen. -/
def pdfOrTextValidator : FileUploadValidator :=
  newFileUploadValidator (logoInput ⟨10, "image/png"⟩)
    ⟨none, some (some ["application/pdf", "text"])⟩

/-- Two cards with accented text and attributes. -/
def frenchItems : List CardElement :=
  [⟨"Chez Éloïse", some "PÂTISSERIE", some "Québec", some "Réseaux", none, ""⟩,
   ⟨"Boulangerie Martin", some "Boulangerie", some "Montréal", some "Pain", none, ""⟩]

/-- The business page of `frenchItems` with the query and filter entries
given. -/
def frenchPage (query : String) (filters : List (String × String)) : DirectorySearch :=
  pageOf false query filters frenchItems

/-! ## Strings: lower-casing and substring search -/

theorem toLowerCase_empty [JsEngine] : toLowerCase "" = "" := (toLowerCase_eq_empty "").2 rfl

theorem lowerOrEmpty_some [JsEngine] (s : String) : lowerOrEmpty (some s) = toLowerCase s := by
  by_cases h : toLowerCase s = ""
  · simp [lowerOrEmpty, h]
  · simp [lowerOrEmpty, h]

theorem lowerOrEmpty_eq [JsEngine] (o : Option String) : lowerOrEmpty o = toLowerCase (o.getD "") := by
  cases o with
  | none => simp [lowerOrEmpty, toLowerCase_empty]
  | some s => simp [lowerOrEmpty_some]

theorem includesChars_iff (s t : List Char) : includesChars s t = true ↔ t <:+: s := by
  induction s with
  | nil => cases t <;> simp [includesChars]
  | cons c cs ih =>
    rw [includesChars, Bool.or_eq_true, ih, List.isPrefixOf_iff_prefix, List.infix_cons_iff]

theorem includes_iff (s t : String) : includes s t = true ↔ t.data <:+: s.data :=
  includesChars_iff s.data t.data

theorem includes_empty (s : String) : includes s "" = true := by
  rw [includes_iff]
  exact List.nil_infix

/-! ## The filter values -/

/-- The object `filterValues` built from a list of entries. -/
theorem filterValuesOf_append [JsEngine] (ds : DirectorySearch) (F : List (String × String))
    (e : String × String) (h : ds.filters = F ++ [e]) :
    filterValuesOf ds =
      (filterValuesOf { ds with filters := F }).set e.1 (toLowerCase e.2) := by
  simp [filterValuesOf, h, List.foldl_append]

theorem filterValuesOf_spec [JsEngine] (F : List (String × String)) :
    ∀ (ds : DirectorySearch) (k : String), ds.filters = F →
      (filterValuesOf ds k = none ∧ ∀ e ∈ F, e.1 ≠ k) ∨
      (∃ v, (k, v) ∈ F ∧ filterValuesOf ds k = some (toLowerCase v)) := by
  induction F using List.reverseRecOn with
  | nil =>
    intro ds k h
    left
    simp [filterValuesOf, h, JsObject.empty]
  | append_singleton F e ih =>
    intro ds k h
    rw [filterValuesOf_append ds F e h]
    by_cases hk : k = e.1
    · right
      refine ⟨e.2, ?_, ?_⟩
      · simp [hk]
      · simp [JsObject.set, hk]
    · have hset : (filterValuesOf { ds with filters := F }).set e.1 (toLowerCase e.2) k =
          filterValuesOf { ds with filters := F } k := by
        simp [JsObject.set, hk]
      rw [hset]
      rcases ih { ds with filters := F } k rfl with ⟨h1, h2⟩ | ⟨v, h1, h2⟩
      · left
        refine ⟨h1, ?_⟩
        intro e' he'
        rcases List.mem_append.1 he' with h3 | h3
        · exact h2 e' h3
        · simp at h3
          subst h3
          exact fun h4 => hk h4.symm
      · right
        exact ⟨v, List.mem_append_left _ h1, h2⟩

/-- A filter name all of whose elements hold the empty string reads as
undefined or as the empty string. -/
theorem filterValuesOf_unset [JsEngine] (ds : DirectorySearch) (k : String)
    (h : ∀ e ∈ ds.filters, e.1 = k → e.2 = "") :
    filterValuesOf ds k = none ∨ filterValuesOf ds k = some "" := by
  rcases filterValuesOf_spec ds.filters ds k rfl with ⟨h1, _⟩ | ⟨v, h1, h2⟩
  · exact Or.inl h1
  · right
    have hv : v = "" := h (k, v) h1 rfl
    rw [h2, hv, toLowerCase_empty]

/-- A filter name present with value `V` only reads as lower-cased `V`. -/
theorem filterValuesOf_value [JsEngine] (ds : DirectorySearch) (k V : String)
    (hmem : (k, V) ∈ ds.filters) (h : ∀ e ∈ ds.filters, e.1 = k → e.2 = V) :
    filterValuesOf ds k = some (toLowerCase V) := by
  rcases filterValuesOf_spec ds.filters ds k rfl with ⟨_, h2⟩ | ⟨v, h1, h2⟩
  · exact absurd rfl (h2 (k, V) hmem)
  · have hv : v = V := h (k, v) h1 rfl
    rw [h2, hv]

/-! ## The loop of the filter pass -/

theorem filterLoop_eq (st : String) (fv : JsObject) (rs : List ListingRecord) :
    ∀ n, filterLoop st fv rs n = (rs.map (render st fv), n + rs.countP (isVisible st fv)) := by
  induction rs with
  | nil => intro n; simp [filterLoop]
  | cons r rs ih =>
    intro n
    by_cases h : isVisible st fv r = true
    · simp [filterLoop, h, ih, render, List.countP_cons_of_pos]
      omega
    · simp [filterLoop, h, ih, render]

/-- The four tests of the loop body as one conjunction. -/
theorem isVisible_eq (st : String) (fv : JsObject) (r : ListingRecord) :
    isVisible st fv r =
      ((st == "" || includes r.text st) &&
        (match fv "category" with
          | some c => c == "" || r.category == c
          | none => true) &&
        (match fv "location" with
          | some l => l == "" || includes r.location l
          | none => true) &&
        (match fv "skill" with
          | some k => k == "" || includes r.skills k
          | none => true)) := by
  unfold isVisible
  simp only [bne]
  cases fv "category" <;> cases fv "location" <;> cases fv "skill" <;> simp only [] <;>
    split_ifs <;> simp_all <;> tauto

/-! ## What a filter pass leaves in the state -/

theorem updateResultsCount_keeps (ds : DirectorySearch) (n : Nat) :
    (updateResultsCount ds n).state.originalResults = ds.originalResults ∧
    (updateResultsCount ds n).state.searchInput = ds.searchInput ∧
    (updateResultsCount ds n).state.filters = ds.filters ∧
    (updateResultsCount ds n).state.container = ds.container ∧
    (updateResultsCount ds n).state.resultsContainer = ds.resultsContainer := by
  rcases ds with ⟨c, rc, si, f, o, ri⟩
  rcases ri with _ | ⟨_ | t⟩ <;> rcases c with _ | c <;> simp [updateResultsCount]

theorem toggleNoResults_keeps (ds : DirectorySearch) (b : Bool) :
    (toggleNoResults ds b).state.originalResults = ds.originalResults ∧
    (toggleNoResults ds b).state.searchInput = ds.searchInput ∧
    (toggleNoResults ds b).state.filters = ds.filters ∧
    (toggleNoResults ds b).state.container = ds.container ∧
    (toggleNoResults ds b).state.resultsInfo = ds.resultsInfo := by
  rcases ds with ⟨c, rc, si, f, o, ri⟩
  rcases rc with _ | ⟨_ | ⟨n, ns⟩⟩ <;> cases b <;> simp [toggleNoResults]

theorem andThen_toggle_keeps (o : Outcome) (b : Bool) :
    (o.andThen (fun d => toggleNoResults d b)).state.originalResults = o.state.originalResults ∧
    (o.andThen (fun d => toggleNoResults d b)).state.searchInput = o.state.searchInput ∧
    (o.andThen (fun d => toggleNoResults d b)).state.filters = o.state.filters ∧
    (o.andThen (fun d => toggleNoResults d b)).state.container = o.state.container ∧
    (o.andThen (fun d => toggleNoResults d b)).state.resultsInfo = o.state.resultsInfo := by
  unfold Outcome.andThen
  split
  · simp
  · exact toggleNoResults_keeps o.state b

/-- The pass as the loop has been characterised: every record rendered, the
number of visible records handed to `updateResultsCount`, then the test
`visibleCount === 0` handed to `toggleNoResults`. -/
theorem filterResults_eq [JsEngine] (ds : DirectorySearch) (rs : List ListingRecord)
    (h : ds.originalResults = some rs) :
    filterResults ds =
      (updateResultsCount (ds.withResults (rs.map (render (searchTermOf ds) (filterValuesOf ds))))
          (rs.countP (isVisible (searchTermOf ds) (filterValuesOf ds)))).andThen
        (fun d => toggleNoResults d
          (rs.countP (isVisible (searchTermOf ds) (filterValuesOf ds)) == 0)) := by
  simp [filterResults, h, filterLoop_eq, DirectorySearch.withResults]

theorem filterResults_originalResults [JsEngine] (ds : DirectorySearch) (rs : List ListingRecord)
    (h : ds.originalResults = some rs) :
    (filterResults ds).state.originalResults =
      some (rs.map (render (searchTermOf ds) (filterValuesOf ds))) := by
  rw [filterResults_eq ds rs h, (andThen_toggle_keeps _ _).1, (updateResultsCount_keeps _ _).1]
  rfl

theorem filterResults_inputs [JsEngine] (ds : DirectorySearch) :
    (filterResults ds).state.searchInput = ds.searchInput ∧
    (filterResults ds).state.filters = ds.filters := by
  unfold filterResults
  cases h : ds.originalResults with
  | none => simp
  | some rs =>
    simp only []
    rw [(andThen_toggle_keeps _ _).2.1, (andThen_toggle_keeps _ _).2.2.1,
      (updateResultsCount_keeps _ _).2.1, (updateResultsCount_keeps _ _).2.2.1]
    simp

theorem displayOf_filterResults [JsEngine] (ds : DirectorySearch) (rs : List ListingRecord)
    (h : ds.originalResults = some rs) (i : Nat) (hi : i < rs.length) :
    (filterResults ds).state.displayOf i =
      some (if isVisible (searchTermOf ds) (filterValuesOf ds) (rs.get ⟨i, hi⟩) then ""
        else "none") := by
  unfold DirectorySearch.displayOf
  rw [filterResults_originalResults ds rs h]
  simp [List.getElem?_eq_getElem hi, render, setDisplay]

theorem searchTermOf_empty [JsEngine] (ds : DirectorySearch)
    (h : ds.searchInput = none ∨ ds.searchInput = some "") : searchTermOf ds = "" := by
  rcases h with h | h
  · simp [searchTermOf, h, lowerOrEmpty]
  · simp [searchTermOf, h, lowerOrEmpty_some, toLowerCase_empty]

/-- The conjunct of `isVisible_eq` for a filter name that is unset. -/
theorem unset_conjunct (f : String → Bool) :
    ∀ o : Option String, (o = none ∨ o = some "") →
      (match o with
        | some c => c == "" || f c
        | none => true) = true := by
  intro o h
  rcases h with h | h <;> simp [h]

/-- The filter values when one filter name holds `V` and every other filter
element holds the empty string. -/
theorem single_filter_values [JsEngine] (ds : DirectorySearch) (k V : String)
    (hset : (k, V) ∈ ds.filters)
    (hk : ∀ e ∈ ds.filters, e.1 = k → e.2 = V)
    (hothers : ∀ e ∈ ds.filters, e.1 ≠ k → e.2 = "") :
    filterValuesOf ds k = some (toLowerCase V) ∧
      ∀ k', k' ≠ k → (filterValuesOf ds k' = none ∨ filterValuesOf ds k' = some "") := by
  refine ⟨filterValuesOf_value ds k V hset hk, ?_⟩
  intro k' hne
  apply filterValuesOf_unset
  intro e he hek
  exact hothers e he (by rw [hek]; exact hne)

theorem lowerOrEmpty_eq_iff [JsEngine] (o : Option String) (w : String) (hw : w ≠ "") :
    lowerOrEmpty o = w ↔ o.map toLowerCase = some w := by
  cases o with
  | none =>
    simp only [lowerOrEmpty, Option.map_none']
    constructor
    · intro h; exact absurd h.symm hw
    · intro h; cases h
  | some s => simp [lowerOrEmpty_some]

theorem toLowerCase_ne_empty [JsEngine] (V : String) (hV : V ≠ "") : toLowerCase V ≠ "" :=
  fun h => hV ((toLowerCase_eq_empty V).1 h)

/-! ## The filters one at a time -/

/-- C1. With an empty query and every other filter empty, a filter named
`category` holding a non-empty value `V` leaves item `i` of the snapshot
shown (display cleared) when the item has a data-category whose lower-cased
form equals lower-cased `V`, and hidden (display `none`) otherwise: also when
the category only contains `V`, and when the attribute is missing. -/
theorem category_filter_exact [JsEngine] (ds : DirectorySearch) (items : List CardElement) (V : String)
    (hsnap : ds.originalResults = some (storeOriginalResults items))
    (hquery : ds.searchInput = none ∨ ds.searchInput = some "")
    (hV : V ≠ "")
    (hset : ("category", V) ∈ ds.filters)
    (hcat : ∀ e ∈ ds.filters, e.1 = "category" → e.2 = V)
    (hothers : ∀ e ∈ ds.filters, e.1 ≠ "category" → e.2 = "")
    (i : Nat) (hi : i < items.length) :
    (filterResults ds).state.displayOf i =
      some (if (items.get ⟨i, hi⟩).dataCategory.map toLowerCase = some (toLowerCase V)
        then "" else "none") := by
  have hlen : i < (storeOriginalResults items).length := by
    simpa [storeOriginalResults] using hi
  rw [displayOf_filterResults ds _ hsnap i hlen, isVisible_eq, searchTermOf_empty ds hquery]
  obtain ⟨h1, h2⟩ := single_filter_values ds "category" V hset hcat hothers
  have hl := unset_conjunct (fun l => includes ((storeOriginalResults items).get ⟨i, hlen⟩).location l)
    _ (h2 "location" (by decide))
  have hs := unset_conjunct (fun l => includes ((storeOriginalResults items).get ⟨i, hlen⟩).skills l)
    _ (h2 "skill" (by decide))
  simp only [] at hl hs
  rw [hl, hs, h1]
  have hw := toLowerCase_ne_empty V hV
  have hrec : ((storeOriginalResults items).get ⟨i, hlen⟩).category =
      lowerOrEmpty (items.get ⟨i, hi⟩).dataCategory := by
    simp [storeOriginalResults, toRecord]
  rw [hrec]
  generalize (items.get ⟨i, hi⟩).dataCategory = o
  by_cases hc : lowerOrEmpty o = toLowerCase V
  · have hc2 := (lowerOrEmpty_eq_iff _ _ hw).1 hc
    rw [if_pos hc2]
    simp [hc]
  · have hc2 : ¬ (o.map toLowerCase = some (toLowerCase V)) :=
      fun h => hc ((lowerOrEmpty_eq_iff _ _ hw).2 h)
    rw [if_neg hc2]
    simp [hc, hw]

theorem category_filter_exact_witness :
    (filterResults categoryPage).state.displayOf 1 =
      some (if (categoryItems.get ⟨1, by decide⟩).dataCategory.map toLowerCase =
          some (toLowerCase "Bakery")
        then "" else "none") ∧
    (filterResults (frenchPage "" [("category", "pâtisserie"), ("location", "")])).state.displayOf 0
      = some (if (frenchItems.get ⟨0, by decide⟩).dataCategory.map toLowerCase =
          some (toLowerCase "pâtisserie")
        then "" else "none") ∧
    (filterResults (frenchPage "" [("category", "pâtisserie"), ("location", "")])).state.displayOf 0
      = some "" ∧
    (filterResults (frenchPage "" [("category", "pâtisserie"), ("location", "")])).state.displayOf 1
      = some "none" :=
  ⟨category_filter_exact categoryPage categoryItems "Bakery" rfl (Or.inr rfl) (by decide)
      (by decide) (by decide) (by decide) 1 (by decide),
    category_filter_exact (frenchPage "" [("category", "pâtisserie"), ("location", "")])
      frenchItems "pâtisserie" rfl (Or.inr rfl) (by decide) (by decide) (by decide) (by decide)
      0 (by decide),
    by decide, by decide⟩

/-- C2, at a concrete page: with the role filter on `developer` and
nothing else set, the card whose stored role is `designer` stays shown: the
pass never reads the stored role. -/
theorem role_filter_not_applied :
    (toRecord (professionalItems.get ⟨0, by decide⟩)).role = "designer" ∧
    toLowerCase "developer" = "developer" ∧
    (filterResults rolePage).state.displayOf 0 = some "" ∧
    (filterResults rolePage).error = none := by
  decide

/-- The stored location and skills of a snapshot entry. -/
theorem storeOriginalResults_get [JsEngine] (items : List CardElement) (i : Nat) (hi : i < items.length)
    (hlen : i < (storeOriginalResults items).length) :
    (storeOriginalResults items).get ⟨i, hlen⟩ = toRecord (items.get ⟨i, hi⟩) := by
  simp [storeOriginalResults]

/-- C3. With an empty query and every other filter empty, a filter named
`location` holding a non-empty value `V` leaves item `i` of the snapshot shown
when lower-cased `V` occurs as a contiguous block in the lower-cased
data-location of the item (the empty string when the attribute is missing),
and hidden otherwise. -/
theorem location_filter_substring [JsEngine] (ds : DirectorySearch) (items : List CardElement)
    (V : String)
    (hsnap : ds.originalResults = some (storeOriginalResults items))
    (hquery : ds.searchInput = none ∨ ds.searchInput = some "")
    (hV : V ≠ "")
    (hset : ("location", V) ∈ ds.filters)
    (hloc : ∀ e ∈ ds.filters, e.1 = "location" → e.2 = V)
    (hothers : ∀ e ∈ ds.filters, e.1 ≠ "location" → e.2 = "")
    (i : Nat) (hi : i < items.length) :
    (filterResults ds).state.displayOf i =
      some (if (toLowerCase V).data <:+:
          (toLowerCase ((items.get ⟨i, hi⟩).dataLocation.getD "")).data
        then "" else "none") := by
  have hlen : i < (storeOriginalResults items).length := by
    simpa [storeOriginalResults] using hi
  rw [displayOf_filterResults ds _ hsnap i hlen, isVisible_eq, searchTermOf_empty ds hquery]
  obtain ⟨h1, h2⟩ := single_filter_values ds "location" V hset hloc hothers
  have hc := unset_conjunct (fun c => ((storeOriginalResults items).get ⟨i, hlen⟩).category == c)
    _ (h2 "category" (by decide))
  have hs := unset_conjunct (fun l => includes ((storeOriginalResults items).get ⟨i, hlen⟩).skills l)
    _ (h2 "skill" (by decide))
  simp only [] at hc hs
  rw [hc, hs, h1, storeOriginalResults_get items i hi hlen]
  have hw := toLowerCase_ne_empty V hV
  simp only [toRecord, lowerOrEmpty_eq]
  generalize toLowerCase ((items.get ⟨i, hi⟩).dataLocation.getD "") = loc
  by_cases hin : (toLowerCase V).data <:+: loc.data
  · rw [if_pos hin]
    simp [(includes_iff loc (toLowerCase V)).2 hin]
  · rw [if_neg hin]
    have hb : includes loc (toLowerCase V) = false := by
      cases hb : includes loc (toLowerCase V)
      · rfl
      · exact absurd ((includes_iff _ _).1 hb) hin
    simp [hb, hw]

theorem location_filter_substring_witness :
    (filterResults locationPage).state.displayOf 0 =
      some (if (toLowerCase "Den").data <:+:
          (toLowerCase ((categoryItems.get ⟨0, by decide⟩).dataLocation.getD "")).data
        then "" else "none") ∧
    (filterResults (frenchPage "" [("category", ""), ("location", "QUÉ")])).state.displayOf 0 =
      some (if (toLowerCase "QUÉ").data <:+:
          (toLowerCase ((frenchItems.get ⟨0, by decide⟩).dataLocation.getD "")).data
        then "" else "none") ∧
    (filterResults (frenchPage "" [("category", ""), ("location", "QUÉ")])).state.displayOf 0 =
      some "" ∧
    (filterResults (frenchPage "" [("category", ""), ("location", "QUÉ")])).state.displayOf 1 =
      some "none" :=
  ⟨location_filter_substring locationPage categoryItems "Den" rfl (Or.inr rfl) (by decide)
      (by decide) (by decide) (by decide) 0 (by decide),
    location_filter_substring (frenchPage "" [("category", ""), ("location", "QUÉ")])
      frenchItems "QUÉ" rfl (Or.inr rfl) (by decide) (by decide) (by decide) (by decide)
      0 (by decide),
    by decide, by decide⟩

/-- C4. With an empty query and every other filter empty, a filter named
`skill` holding a non-empty value `V` leaves item `i` of the snapshot shown
when lower-cased `V` occurs as a contiguous block in the stored `skills`
field of the item (lower-cased data-skills, the empty string when the
attribute is missing), and hidden otherwise. -/
theorem skill_filter_substring [JsEngine] (ds : DirectorySearch) (items : List CardElement)
    (V : String)
    (hsnap : ds.originalResults = some (storeOriginalResults items))
    (hquery : ds.searchInput = none ∨ ds.searchInput = some "")
    (hV : V ≠ "")
    (hset : ("skill", V) ∈ ds.filters)
    (hskill : ∀ e ∈ ds.filters, e.1 = "skill" → e.2 = V)
    (hothers : ∀ e ∈ ds.filters, e.1 ≠ "skill" → e.2 = "")
    (i : Nat) (hi : i < items.length) :
    (toRecord (items.get ⟨i, hi⟩)).skills =
        toLowerCase ((items.get ⟨i, hi⟩).dataSkills.getD "") ∧
    (filterResults ds).state.displayOf i =
      some (if (toLowerCase V).data <:+: (toRecord (items.get ⟨i, hi⟩)).skills.data
        then "" else "none") := by
  refine ⟨by simp [toRecord, lowerOrEmpty_eq], ?_⟩
  have hlen : i < (storeOriginalResults items).length := by
    simpa [storeOriginalResults] using hi
  rw [displayOf_filterResults ds _ hsnap i hlen, isVisible_eq, searchTermOf_empty ds hquery]
  obtain ⟨h1, h2⟩ := single_filter_values ds "skill" V hset hskill hothers
  have hc := unset_conjunct (fun c => ((storeOriginalResults items).get ⟨i, hlen⟩).category == c)
    _ (h2 "category" (by decide))
  have hl := unset_conjunct (fun l => includes ((storeOriginalResults items).get ⟨i, hlen⟩).location l)
    _ (h2 "location" (by decide))
  simp only [] at hc hl
  rw [hc, hl, h1, storeOriginalResults_get items i hi hlen]
  have hw := toLowerCase_ne_empty V hV
  generalize (toRecord (items.get ⟨i, hi⟩)).skills = sk
  by_cases hin : (toLowerCase V).data <:+: sk.data
  · rw [if_pos hin]
    simp [(includes_iff sk (toLowerCase V)).2 hin]
  · rw [if_neg hin]
    have hb : includes sk (toLowerCase V) = false := by
      cases hb : includes sk (toLowerCase V)
      · rfl
      · exact absurd ((includes_iff _ _).1 hb) hin
    simp [hb, hw]

theorem skill_filter_substring_witness :
    (toRecord (professionalItems.get ⟨1, by decide⟩)).skills =
        toLowerCase ((professionalItems.get ⟨1, by decide⟩).dataSkills.getD "") ∧
    (filterResults skillPage).state.displayOf 1 =
      some (if (toLowerCase "lean").data <:+:
          (toRecord (professionalItems.get ⟨1, by decide⟩)).skills.data
        then "" else "none") ∧
    (filterResults (frenchPage "" [("skill", "RÉSEAUX")])).state.displayOf 0 = some "" ∧
    (filterResults (frenchPage "" [("skill", "RÉSEAUX")])).state.displayOf 1 = some "none" :=
  ⟨(skill_filter_substring skillPage professionalItems "lean" rfl (Or.inr rfl) (by decide)
      (by decide) (by decide) (by decide) 1 (by decide)).1,
    (skill_filter_substring skillPage professionalItems "lean" rfl (Or.inr rfl) (by decide)
      (by decide) (by decide) (by decide) 1 (by decide)).2,
    by decide, by decide⟩

/-! ## Query and filters together -/

theorem shown_iff (b : Bool) :
    (some (if b = true then "" else "none") : Option String) = some "" ↔ b = true := by
  cases b <;> decide

/-- C5. An item is shown by the pass for query `q` and the current filter
values exactly when (`q` is empty or lower-cased `q` occurs in the lower-cased
text content of the item) and the item is shown by the pass for the empty
query and the same filter values. -/
theorem query_and_filters_conjunctive [JsEngine] (ds : DirectorySearch) (items : List CardElement)
    (q : String)
    (hsnap : ds.originalResults = some (storeOriginalResults items))
    (hq : ds.searchInput = some q)
    (i : Nat) (hi : i < items.length) :
    (filterResults ds).state.displayOf i = some "" ↔
      (q = "" ∨ (toLowerCase q).data <:+: (toLowerCase (items.get ⟨i, hi⟩).textContent).data) ∧
        (filterResults (ds.withQuery "")).state.displayOf i = some "" := by
  have hlen : i < (storeOriginalResults items).length := by
    simpa [storeOriginalResults] using hi
  have hst : searchTermOf ds = toLowerCase q := by
    simp [searchTermOf, hq, lowerOrEmpty_some]
  have hst0 : searchTermOf (ds.withQuery "") = "" :=
    searchTermOf_empty _ (Or.inr rfl)
  have hfv : filterValuesOf (ds.withQuery "") = filterValuesOf ds := rfl
  rw [displayOf_filterResults ds _ hsnap i hlen,
    displayOf_filterResults (ds.withQuery "") _ hsnap i hlen, shown_iff, shown_iff,
    isVisible_eq, isVisible_eq, hst, hst0, hfv, storeOriginalResults_get items i hi hlen]
  have htext : (toRecord (items.get ⟨i, hi⟩)).text = toLowerCase (items.get ⟨i, hi⟩).textContent :=
    rfl
  rw [htext]
  generalize toLowerCase (items.get ⟨i, hi⟩).textContent = text
  have hinc := includes_iff text (toLowerCase q)
  have hemp := toLowerCase_eq_empty q
  generalize (match filterValuesOf ds "category" with
    | some c => c == "" || (toRecord (items.get ⟨i, hi⟩)).category == c
    | none => true) = c1
  generalize (match filterValuesOf ds "location" with
    | some l => l == "" || includes (toRecord (items.get ⟨i, hi⟩)).location l
    | none => true) = c2
  generalize (match filterValuesOf ds "skill" with
    | some k => k == "" || includes (toRecord (items.get ⟨i, hi⟩)).skills k
    | none => true) = c3
  simp only [Bool.and_eq_true, Bool.or_eq_true, beq_iff_eq, hinc, hemp, includes_empty]
  tauto

theorem query_and_filters_conjunctive_witness :
    ((filterResults (bakeryPage "rolls")).state.displayOf 0 = some "" ↔
      ("rolls" = "" ∨ (toLowerCase "rolls").data <:+:
          (toLowerCase (bakeryItems.get ⟨0, by decide⟩).textContent).data) ∧
        (filterResults ((bakeryPage "rolls").withQuery "")).state.displayOf 0 = some "") ∧
    (bakeryPage "rolls").withQuery "" = bakeryPage "" ∧
    (filterResults (bakeryPage "")).state.displayOf 0 = some "" ∧
    (filterResults (bakeryPage "")).state.displayOf 1 = some "none" ∧
    (filterLoop (searchTermOf (bakeryPage "")) (filterValuesOf (bakeryPage ""))
      (storeOriginalResults bakeryItems) 0).2 = 1 ∧
    (filterResults (bakeryPage "")).state.resultsInfo = some ⟨some "Found 1 business"⟩ ∧
    (filterResults (frenchPage "ÉLOÏSE" [])).state.displayOf 0 = some "" ∧
    (filterResults (frenchPage "ÉLOÏSE" [])).state.displayOf 1 = some "none" :=
  ⟨query_and_filters_conjunctive (bakeryPage "rolls") bakeryItems "rolls" rfl rfl 0 (by decide),
    by decide, by decide, by decide, by decide, by decide, by decide, by decide⟩

/-! ## The pass with nothing set, and clearFilters -/

theorem isVisible_nothing_set [JsEngine] (ds : DirectorySearch)
    (hquery : ds.searchInput = none ∨ ds.searchInput = some "")
    (hfilters : ∀ e ∈ ds.filters, e.2 = "") (r : ListingRecord) :
    isVisible (searchTermOf ds) (filterValuesOf ds) r = true := by
  have hun : ∀ k, filterValuesOf ds k = none ∨ filterValuesOf ds k = some "" :=
    fun k => filterValuesOf_unset ds k (fun e he _ => hfilters e he)
  have hc := unset_conjunct (fun c => r.category == c) _ (hun "category")
  have hl := unset_conjunct (fun l => includes r.location l) _ (hun "location")
  have hs := unset_conjunct (fun l => includes r.skills l) _ (hun "skill")
  simp only [] at hc hl hs
  rw [isVisible_eq, searchTermOf_empty ds hquery, hc, hl, hs]
  simp

theorem pass_nothing_set [JsEngine] (ds : DirectorySearch) (rs : List ListingRecord)
    (hsnap : ds.originalResults = some rs)
    (hquery : ds.searchInput = none ∨ ds.searchInput = some "")
    (hfilters : ∀ e ∈ ds.filters, e.2 = "") :
    filterResults ds =
      (updateResultsCount (ds.withResults (rs.map (fun r => setDisplay r ""))) rs.length).andThen
        (fun d => toggleNoResults d (rs.length == 0)) := by
  have hvis : isVisible (searchTermOf ds) (filterValuesOf ds) = fun _ => true :=
    funext (isVisible_nothing_set ds hquery hfilters)
  have hrender : render (searchTermOf ds) (filterValuesOf ds) = fun r => setDisplay r "" := by
    funext r
    simp [render, hvis]
  rw [filterResults_eq ds rs hsnap, hrender, hvis]
  simp

theorem displayOf_of_results (ds : DirectorySearch) (rs : List ListingRecord)
    (h : ds.originalResults = some (rs.map (fun r => setDisplay r "")))
    (i : Nat) (hi : i < rs.length) : ds.displayOf i = some "" := by
  simp [DirectorySearch.displayOf, h, List.getElem?_eq_getElem hi, setDisplay]

theorem pass_nothing_set_displays [JsEngine] (ds : DirectorySearch) (rs : List ListingRecord)
    (hsnap : ds.originalResults = some rs)
    (hquery : ds.searchInput = none ∨ ds.searchInput = some "")
    (hfilters : ∀ e ∈ ds.filters, e.2 = "") :
    ∀ i, i < rs.length → (filterResults ds).state.displayOf i = some "" := by
  intro i hi
  apply displayOf_of_results _ rs _ i hi
  rw [pass_nothing_set ds rs hsnap hquery hfilters, (andThen_toggle_keeps _ _).1,
    (updateResultsCount_keeps _ _).1]
  rfl

/-- C6. A filter pass run with an empty query and every filter value empty
hands `updateResultsCount` the length of the snapshot (and `toggleNoResults`
the test of that length being zero), and leaves every item of the snapshot
with its display cleared. -/
theorem empty_pass_shows_all [JsEngine] (ds : DirectorySearch) (rs : List ListingRecord)
    (hsnap : ds.originalResults = some rs)
    (hquery : ds.searchInput = none ∨ ds.searchInput = some "")
    (hfilters : ∀ e ∈ ds.filters, e.2 = "") :
    filterResults ds =
        (updateResultsCount (ds.withResults (rs.map (fun r => setDisplay r "")))
          rs.length).andThen (fun d => toggleNoResults d (rs.length == 0)) ∧
      (filterLoop (searchTermOf ds) (filterValuesOf ds) rs 0).2 = rs.length ∧
      ∀ i, i < rs.length → (filterResults ds).state.displayOf i = some "" := by
  refine ⟨pass_nothing_set ds rs hsnap hquery hfilters, ?_,
    pass_nothing_set_displays ds rs hsnap hquery hfilters⟩
  have hvis : isVisible (searchTermOf ds) (filterValuesOf ds) = fun _ => true :=
    funext (isVisible_nothing_set ds hquery hfilters)
  rw [filterLoop_eq, hvis]
  simp

theorem empty_pass_shows_all_witness :
    filterResults (pageOf false "" [("category", ""), ("location", "")] bakeryItems) =
        (updateResultsCount
          ((pageOf false "" [("category", ""), ("location", "")] bakeryItems).withResults
            ((storeOriginalResults bakeryItems).map (fun r => setDisplay r "")))
          (storeOriginalResults bakeryItems).length).andThen
          (fun d => toggleNoResults d ((storeOriginalResults bakeryItems).length == 0)) ∧
      (filterLoop (searchTermOf (pageOf false "" [("category", ""), ("location", "")] bakeryItems))
        (filterValuesOf (pageOf false "" [("category", ""), ("location", "")] bakeryItems))
        (storeOriginalResults bakeryItems) 0).2 = (storeOriginalResults bakeryItems).length ∧
      ∀ i, i < (storeOriginalResults bakeryItems).length →
        (filterResults (pageOf false "" [("category", ""), ("location", "")]
          bakeryItems)).state.displayOf i = some "" :=
  empty_pass_shows_all (pageOf false "" [("category", ""), ("location", "")] bakeryItems)
    (storeOriginalResults bakeryItems) rfl (Or.inr rfl) (by decide)

theorem clearInputs_spec (ds : DirectorySearch) :
    ((clearInputs ds).searchInput = none ∨ (clearInputs ds).searchInput = some "") ∧
      (∀ e ∈ (clearInputs ds).filters, e.2 = "") ∧
      (clearInputs ds).filters.map Prod.fst = ds.filters.map Prod.fst ∧
      (clearInputs ds).originalResults = ds.originalResults := by
  rcases ds with ⟨c, rc, si, f, o, ri⟩
  cases si <;> simp [clearInputs, Function.comp_def] <;>
    exact fun a b x y _ _ h => h.symm

/-- C7. Whatever the query, the filter values and the display of the items
were, `clearFilters` leaves the search input (when there is one) and every
filter element with the empty string as value, hands `updateResultsCount` the
length of the snapshot, and leaves every item of the snapshot with its
display cleared. -/
theorem clearFilters_shows_all [JsEngine] (ds : DirectorySearch) (rs : List ListingRecord)
    (hsnap : ds.originalResults = some rs) :
    (clearFilters ds).state.searchInput = ds.searchInput.map (fun _ => "") ∧
      (∀ e ∈ (clearFilters ds).state.filters, e.2 = "") ∧
      (clearFilters ds).state.filters.map Prod.fst = ds.filters.map Prod.fst ∧
      clearFilters ds =
        (updateResultsCount ((clearInputs ds).withResults (rs.map (fun r => setDisplay r "")))
          rs.length).andThen (fun d => toggleNoResults d (rs.length == 0)) ∧
      ∀ i, i < rs.length → (clearFilters ds).state.displayOf i = some "" := by
  obtain ⟨h1, h2, h3, h4⟩ := clearInputs_spec ds
  have hsnap2 : (clearInputs ds).originalResults = some rs := by rw [h4, hsnap]
  have e1 := pass_nothing_set (clearInputs ds) rs hsnap2 h1 h2
  have e3 := pass_nothing_set_displays (clearInputs ds) rs hsnap2 h1 h2
  have hin := filterResults_inputs (clearInputs ds)
  refine ⟨?_, ?_, ?_, e1, e3⟩
  · show (filterResults (clearInputs ds)).state.searchInput = _
    rw [hin.1]
    rcases ds with ⟨c, rc, si, f, o, ri⟩
    cases si <;> simp [clearInputs]
  · show ∀ e ∈ (filterResults (clearInputs ds)).state.filters, e.2 = ""
    rw [hin.2]
    exact h2
  · show (filterResults (clearInputs ds)).state.filters.map Prod.fst = _
    rw [hin.2]
    exact h3

theorem clearFilters_shows_all_witness :
    (clearFilters usedPage).state.searchInput = usedPage.searchInput.map (fun _ => "") ∧
      (∀ e ∈ (clearFilters usedPage).state.filters, e.2 = "") ∧
      (clearFilters usedPage).state.filters.map Prod.fst = usedPage.filters.map Prod.fst ∧
      clearFilters usedPage =
        (updateResultsCount ((clearInputs usedPage).withResults
          (((storeOriginalResults bakeryItems).map (fun r => setDisplay r "none")).map
            (fun r => setDisplay r "")))
          ((storeOriginalResults bakeryItems).map (fun r => setDisplay r "none")).length).andThen
          (fun d => toggleNoResults d
            (((storeOriginalResults bakeryItems).map (fun r => setDisplay r "none")).length
              == 0)) ∧
      ∀ i, i < ((storeOriginalResults bakeryItems).map (fun r => setDisplay r "none")).length →
        (clearFilters usedPage).state.displayOf i = some "" :=
  clearFilters_shows_all usedPage
    ((storeOriginalResults bakeryItems).map (fun r => setDisplay r "none")) rfl

/-! ## The results text -/

/-- C8, at concrete pages: on the professionals page a pass that leaves two
items shown writes `Found 2 professionales` and one that leaves none shown
writes `Found 0 professionales`, where the noun should read `professionals`;
with one item shown the text is `Found 1 professional`. -/
theorem professionals_plural_text :
    (filterResults (professionalsPage "")).state.shownCount = 2 ∧
    (filterResults (professionalsPage "")).state.resultsInfo =
      some ⟨some "Found 2 professionales"⟩ ∧
    (filterResults (professionalsPage "zebra")).state.shownCount = 0 ∧
    (filterResults (professionalsPage "zebra")).state.resultsInfo =
      some ⟨some "Found 0 professionales"⟩ ∧
    (filterResults (professionalsPage "ada")).state.shownCount = 1 ∧
    (filterResults (professionalsPage "ada")).state.resultsInfo =
      some ⟨some "Found 1 professional"⟩ := by
  decide

/-! ## The no-results block -/

theorem updateResultsCount_ready (ds : DirectorySearch) (n : Nat)
    (h : ds.reportReady = true) :
    (updateResultsCount ds n).error = none ∧
      (updateResultsCount ds n).state.reportReady = true := by
  rcases ds with ⟨c, rc, si, f, o, ri⟩
  rcases ri with _ | ⟨_ | t⟩ <;> rcases c with _ | c <;>
    simp_all [updateResultsCount, DirectorySearch.reportReady]

theorem toggleNoResults_spec (ds : DirectorySearch) (nodes : List NoResultsNode) (b : Bool)
    (hrc : ds.resultsContainer = some ⟨nodes⟩) (hlen : nodes.length ≤ 1) :
    (toggleNoResults ds b).error = none ∧
      ∃ nodes', (toggleNoResults ds b).state.resultsContainer = some ⟨nodes'⟩ ∧
        nodes'.length ≤ 1 ∧
        (b = true → nodes' = [⟨"block"⟩]) ∧
        (b = false → nodes' = [] ∨ nodes' = [⟨"none"⟩]) := by
  rcases ds with ⟨c, rc, si, f, o, ri⟩
  simp only at hrc
  subst hrc
  rcases nodes with _ | ⟨n, _ | ⟨m, ms⟩⟩
  · cases b <;> simp [toggleNoResults]
  · cases b <;> simp [toggleNoResults]
  · simp at hlen

theorem shownCount_filterResults [JsEngine] (ds : DirectorySearch) (rs : List ListingRecord)
    (hsnap : ds.originalResults = some rs) :
    (filterResults ds).state.shownCount =
      rs.countP (isVisible (searchTermOf ds) (filterValuesOf ds)) := by
  unfold DirectorySearch.shownCount
  rw [filterResults_originalResults ds rs hsnap]
  simp only [List.countP_map]
  congr 1
  funext r
  by_cases h : isVisible (searchTermOf ds) (filterValuesOf ds) r = true <;>
    simp [render, setDisplay, h]

theorem toggleNoResults_ready (ds : DirectorySearch) (b : Bool) :
    (toggleNoResults ds b).state.reportReady = ds.reportReady := by
  obtain ⟨_, _, _, h4, h5⟩ := toggleNoResults_keeps ds b
  simp [DirectorySearch.reportReady, h4, h5]

/-- One pass on a page where `updateResultsCount` runs through and the results
area holds at most one no-results node. -/
theorem pass_noResults [JsEngine] (ds : DirectorySearch) (rs : List ListingRecord)
    (nodes : List NoResultsNode)
    (hsnap : ds.originalResults = some rs)
    (hrc : ds.resultsContainer = some ⟨nodes⟩) (hlen : nodes.length ≤ 1)
    (hready : ds.reportReady = true) :
    (filterResults ds).error = none ∧
      (filterResults ds).state.reportReady = true ∧
      (∃ rs', (filterResults ds).state.originalResults = some rs') ∧
      ∃ nodes', (filterResults ds).state.resultsContainer = some ⟨nodes'⟩ ∧
        nodes'.length ≤ 1 ∧
        ((filterResults ds).state.shownCount = 0 → nodes' = [⟨"block"⟩]) ∧
        ((filterResults ds).state.shownCount ≠ 0 → nodes' = [] ∨ nodes' = [⟨"none"⟩]) := by
  have hcount := shownCount_filterResults ds rs hsnap
  have horig := filterResults_originalResults ds rs hsnap
  rw [hcount]
  rw [filterResults_eq ds rs hsnap] at horig ⊢
  generalize rs.countP (isVisible (searchTermOf ds) (filterValuesOf ds)) = n at *
  generalize hds1 : ds.withResults (rs.map (render (searchTermOf ds) (filterValuesOf ds))) = ds1
    at *
  have hready1 : ds1.reportReady = true := by
    rw [← hds1]
    simpa [DirectorySearch.reportReady, DirectorySearch.withResults] using hready
  have hrc1 : ds1.resultsContainer = some ⟨nodes⟩ := by
    rw [← hds1]
    simpa [DirectorySearch.withResults] using hrc
  obtain ⟨u1, u2⟩ := updateResultsCount_ready ds1 n hready1
  have u3 := (updateResultsCount_keeps ds1 n).2.2.2.2
  have hand : (updateResultsCount ds1 n).andThen (fun d => toggleNoResults d (n == 0)) =
      toggleNoResults (updateResultsCount ds1 n).state (n == 0) := by
    simp [Outcome.andThen, u1]
  rw [hand] at horig ⊢
  obtain ⟨t1, nodes', t2, t3, t4, t5⟩ :=
    toggleNoResults_spec (updateResultsCount ds1 n).state nodes (n == 0) (by rw [u3, hrc1]) hlen
  refine ⟨t1, ?_, ⟨_, horig⟩, nodes', t2, t3, ?_, ?_⟩
  · rw [toggleNoResults_ready, u2]
  · intro h0
    exact t4 (by simp [h0])
  · intro h0
    exact t5 (by simp [h0])

theorem passes_noResults [JsEngine] (inputs : List (Option String × List (String × String))) :
    ∀ (ds : DirectorySearch) (rs : List ListingRecord) (nodes : List NoResultsNode),
      ds.originalResults = some rs → ds.resultsContainer = some ⟨nodes⟩ → nodes.length ≤ 1 →
      ds.reportReady = true →
      ∀ out ∈ passes ds inputs,
        out.error = none ∧
          ∃ nodes', out.state.resultsContainer = some ⟨nodes'⟩ ∧ nodes'.length ≤ 1 ∧
            (out.state.shownCount = 0 → nodes' = [⟨"block"⟩]) ∧
            (out.state.shownCount ≠ 0 → nodes' = [] ∨ nodes' = [⟨"none"⟩]) := by
  induction inputs with
  | nil => intro ds rs nodes _ _ _ _ out hout; simp [passes] at hout
  | cons inp rest ih =>
    intro ds rs nodes hsnap hrc hlen hready out hout
    obtain ⟨p1, p2, ⟨rs', p3⟩, nodes', p4, p5, p6, p7⟩ :=
      pass_noResults (ds.withInputs inp.1 inp.2) rs nodes
        (by simpa [DirectorySearch.withInputs] using hsnap)
        (by simpa [DirectorySearch.withInputs] using hrc) hlen
        (by simpa [DirectorySearch.withInputs, DirectorySearch.reportReady] using hready)
    simp only [passes, List.mem_cons] at hout
    rcases hout with hout | hout
    · subst hout
      exact ⟨p1, nodes', p4, p5, p6, p7⟩
    · exact ih _ rs' nodes' p3 p4 p5 p2 out hout

/-- On a page where `updateResultsCount` runs through, starting from a
results area without a `.no-results-instant` node, every pass of any sequence
of passes completes and leaves at most one such node in the results area; the
node is there with display `block` when the pass left no item shown, and is
absent or has display `none` when the pass left some item shown. -/
theorem no_results_block_invariant [JsEngine] (ds : DirectorySearch) (rs : List ListingRecord)
    (inputs : List (Option String × List (String × String)))
    (hsnap : ds.originalResults = some rs)
    (hrc : ds.resultsContainer = some ⟨[]⟩)
    (hready : ds.reportReady = true) :
    ∀ out ∈ passes ds inputs,
      out.error = none ∧
        ∃ nodes, out.state.resultsContainer = some ⟨nodes⟩ ∧ nodes.length ≤ 1 ∧
          (out.state.shownCount = 0 → nodes = [⟨"block"⟩]) ∧
          (out.state.shownCount ≠ 0 → nodes = [] ∨ nodes = [⟨"none"⟩]) :=
  passes_noResults inputs ds rs [] hsnap hrc (by simp) hready

theorem no_results_block_invariant_witness :
    (∀ out ∈ passes (bakeryPage "") [(some "zebra", []), (some "quagga", []), (some "", [])],
      out.error = none ∧
        ∃ nodes, out.state.resultsContainer = some ⟨nodes⟩ ∧ nodes.length ≤ 1 ∧
          (out.state.shownCount = 0 → nodes = [⟨"block"⟩]) ∧
          (out.state.shownCount ≠ 0 → nodes = [] ∨ nodes = [⟨"none"⟩])) ∧
    (passes (bakeryPage "") [(some "zebra", []), (some "quagga", []), (some "", [])]).map
        (fun out => (out.state.shownCount, out.state.resultsContainer)) =
      [(0, some ⟨[⟨"block"⟩]⟩), (0, some ⟨[⟨"block"⟩]⟩), (2, some ⟨[⟨"none"⟩]⟩)] :=
  ⟨no_results_block_invariant (bakeryPage "") (storeOriginalResults bakeryItems)
    [(some "zebra", []), (some "quagga", []), (some "", [])] rfl rfl (by decide), by decide⟩

/-! ## Filters the pass does not know -/

theorem foldl_set_congr [JsEngine] (name value k : String) (hk : k ≠ name) (F : List (String × String)) :
    ∀ (o o' : JsObject), o k = o' k →
      (F.foldl (fun o entry => o.set entry.1 (toLowerCase entry.2)) o) k =
        ((F.map (fun entry => if entry.1 = name then (entry.1, value) else entry)).foldl
          (fun o entry => o.set entry.1 (toLowerCase entry.2)) o') k := by
  induction F with
  | nil => intro o o' h; simpa using h
  | cons e F ih =>
    intro o o' h
    simp only [List.foldl_cons, List.map_cons]
    apply ih
    by_cases he : e.1 = name
    · have hke : k ≠ e.1 := by rw [he]; exact hk
      simp [JsObject.set, he, hk, h]
    · simp [JsObject.set, he, h]

theorem filterValuesOf_setFilterValue [JsEngine] (ds : DirectorySearch) (name value k : String)
    (hk : k ≠ name) :
    filterValuesOf (ds.setFilterValue name value) k = filterValuesOf ds k :=
  (foldl_set_congr name value k hk ds.filters JsObject.empty JsObject.empty rfl).symm

theorem isVisible_setFilterValue [JsEngine] (ds : DirectorySearch) (name value : String)
    (hc : name ≠ "category") (hl : name ≠ "location") (hs : name ≠ "skill") :
    isVisible (searchTermOf (ds.setFilterValue name value))
        (filterValuesOf (ds.setFilterValue name value)) =
      isVisible (searchTermOf ds) (filterValuesOf ds) := by
  funext r
  rw [isVisible_eq, isVisible_eq,
    filterValuesOf_setFilterValue ds name value "category" (Ne.symm hc),
    filterValuesOf_setFilterValue ds name value "location" (Ne.symm hl),
    filterValuesOf_setFilterValue ds name value "skill" (Ne.symm hs)]
  rfl

theorem filterResults_setFilterValue [JsEngine] (ds : DirectorySearch) (name value : String)
    (hc : name ≠ "category") (hl : name ≠ "location") (hs : name ≠ "skill") :
    filterResults (ds.setFilterValue name value) =
      ⟨(filterResults ds).state.setFilterValue name value, (filterResults ds).error⟩ := by
  have hvis := isVisible_setFilterValue ds name value hc hl hs
  cases ho : ds.originalResults with
  | none =>
    have ho' : (ds.setFilterValue name value).originalResults = none := ho
    simp [filterResults, ho, ho']
  | some rs =>
    have ho' : (ds.setFilterValue name value).originalResults = some rs := ho
    rw [filterResults_eq _ rs ho', filterResults_eq ds rs ho, hvis]
    have hr : render (searchTermOf (ds.setFilterValue name value))
        (filterValuesOf (ds.setFilterValue name value)) =
        render (searchTermOf ds) (filterValuesOf ds) := by
      funext r
      simp only [render, hvis]
    rw [hr]
    generalize rs.countP (isVisible (searchTermOf ds) (filterValuesOf ds)) = n
    generalize rs.map (render (searchTermOf ds) (filterValuesOf ds)) = rs'
    rcases ds with ⟨c, rc, si, f, o, ri⟩
    rcases ri with _ | ⟨_ | t⟩ <;> rcases c with _ | c <;> rcases rc with _ | ⟨_ | ⟨m, ms⟩⟩ <;>
      cases hb : (n == 0) <;>
      simp [updateResultsCount, toggleNoResults, Outcome.andThen, DirectorySearch.withResults,
        DirectorySearch.setFilterValue]

/-- C10. Changing the value of a filter element whose name is none of
`category`, `location`, `skill`, `role` changes nothing a filter pass does:
the display left on every item, the number of items shown, the results text,
the no-results nodes and the exception raised, if any, are the same. -/
theorem unknown_filter_inert [JsEngine] (ds : DirectorySearch) (name value : String)
    (hc : name ≠ "category") (hl : name ≠ "location") (hs : name ≠ "skill")
    (_hr : name ≠ "role") :
    (filterResults (ds.setFilterValue name value)).state.originalResults =
        (filterResults ds).state.originalResults ∧
      (filterResults (ds.setFilterValue name value)).state.shownCount =
        (filterResults ds).state.shownCount ∧
      (filterResults (ds.setFilterValue name value)).state.resultsInfo =
        (filterResults ds).state.resultsInfo ∧
      (filterResults (ds.setFilterValue name value)).state.resultsContainer =
        (filterResults ds).state.resultsContainer ∧
      (filterResults (ds.setFilterValue name value)).error = (filterResults ds).error := by
  rw [filterResults_setFilterValue ds name value hc hl hs]
  simp [DirectorySearch.setFilterValue, DirectorySearch.shownCount]

theorem unknown_filter_inert_witness :
    ((filterResults ((pageOf false "" [("category", "bakery"), ("sort", "")]
          bakeryItems).setFilterValue "sort" "name")).state.originalResults =
        (filterResults (pageOf false "" [("category", "bakery"), ("sort", "")]
          bakeryItems)).state.originalResults ∧
      (filterResults ((pageOf false "" [("category", "bakery"), ("sort", "")]
          bakeryItems).setFilterValue "sort" "name")).state.shownCount =
        (filterResults (pageOf false "" [("category", "bakery"), ("sort", "")]
          bakeryItems)).state.shownCount ∧
      (filterResults ((pageOf false "" [("category", "bakery"), ("sort", "")]
          bakeryItems).setFilterValue "sort" "name")).state.resultsInfo =
        (filterResults (pageOf false "" [("category", "bakery"), ("sort", "")]
          bakeryItems)).state.resultsInfo ∧
      (filterResults ((pageOf false "" [("category", "bakery"), ("sort", "")]
          bakeryItems).setFilterValue "sort" "name")).state.resultsContainer =
        (filterResults (pageOf false "" [("category", "bakery"), ("sort", "")]
          bakeryItems)).state.resultsContainer ∧
      (filterResults ((pageOf false "" [("category", "bakery"), ("sort", "")]
          bakeryItems).setFilterValue "sort" "name")).error =
        (filterResults (pageOf false "" [("category", "bakery"), ("sort", "")]
          bakeryItems)).error) ∧
    ((pageOf false "" [("category", "bakery"), ("sort", "")] bakeryItems).setFilterValue
      "sort" "name").filters = [("category", "bakery"), ("sort", "name")] :=
  ⟨unknown_filter_inert (pageOf false "" [("category", "bakery"), ("sort", "")] bakeryItems)
    "sort" "name" (by decide) (by decide) (by decide) (by decide), by decide⟩

/-! ## Missing DOM targets -/

/-- C11, at concrete documents.  When the results selector matches nothing
the constructor itself raises a TypeError (in `storeOriginalResults`).  When
the container selector matches nothing the constructor returns without a
snapshot, and `filterResults`, `clearFilters` and `handleFilterChange` (and
so the callback of the debounce timer) then raise a TypeError instead of
doing nothing. -/
theorem missing_targets_raise :
    (newDirectorySearch noResultsDocument).error = some JsError.typeError ∧
    (newDirectorySearch noContainerDocument).error = none ∧
    (newDirectorySearch noContainerDocument).state.originalResults = none ∧
    (filterResults (newDirectorySearch noContainerDocument).state).error =
      some JsError.typeError ∧
    (clearFilters (newDirectorySearch noContainerDocument).state).error =
      some JsError.typeError ∧
    (handleFilterChange (newDirectorySearch noContainerDocument).state).error =
      some JsError.typeError := by
  decide

/-! ## Refining the query -/

theorem includes_of_infix (text a b : String) (hab : a.data <:+: b.data)
    (h : includes text b = true) : includes text a = true := by
  rw [includes_iff] at h ⊢
  exact List.IsInfix.trans hab h

/-- A record visible for the longer search term is visible for the shorter
one, the filter values being the same. -/
theorem isVisible_of_infix (a b : String) (fv : JsObject) (r : ListingRecord)
    (hab : a.data <:+: b.data) (h : isVisible b fv r = true) : isVisible a fv r = true := by
  rw [isVisible_eq] at h ⊢
  simp only [Bool.and_eq_true, Bool.or_eq_true, beq_iff_eq] at h ⊢
  obtain ⟨⟨⟨h1, h2⟩, h3⟩, h4⟩ := h
  refine ⟨⟨⟨?_, h2⟩, h3⟩, h4⟩
  rcases h1 with h1 | h1
  · left
    have hb : b.data = [] := by rw [h1]
    rw [hb] at hab
    have ha : a.data = [] := List.eq_nil_of_infix_nil hab
    cases a
    simp_all
  · right
    exact includes_of_infix r.text a b hab h1

/-- C18, as amended.  With the snapshot and the filter values fixed, if the
lower-cased form of `q` occurs in the lower-cased form of `q'` then every item
shown by the pass for `q'` is shown by the pass for `q`, and the pass for `q'`
leaves at most as many items shown as the pass for `q`. -/
theorem query_refinement_monotone [JsEngine] (ds : DirectorySearch) (rs : List ListingRecord)
    (q q' : String)
    (hsnap : ds.originalResults = some rs)
    (hsub : (toLowerCase q).data <:+: (toLowerCase q').data) :
    (∀ i, (filterResults (ds.withQuery q')).state.displayOf i = some "" →
        (filterResults (ds.withQuery q)).state.displayOf i = some "") ∧
      (filterResults (ds.withQuery q')).state.shownCount ≤
        (filterResults (ds.withQuery q)).state.shownCount ∧
      (filterLoop (searchTermOf (ds.withQuery q')) (filterValuesOf (ds.withQuery q')) rs 0).2 ≤
        (filterLoop (searchTermOf (ds.withQuery q)) (filterValuesOf (ds.withQuery q)) rs 0).2 := by
  have hst : ∀ x, searchTermOf (ds.withQuery x) = toLowerCase x := by
    intro x
    simp [searchTermOf, DirectorySearch.withQuery, lowerOrEmpty_some]
  have hfv : ∀ x, filterValuesOf (ds.withQuery x) = filterValuesOf ds := fun _ => rfl
  have hs : ∀ x, (ds.withQuery x).originalResults = some rs := fun _ => hsnap
  have hmono : ∀ r, isVisible (toLowerCase q') (filterValuesOf ds) r = true →
      isVisible (toLowerCase q) (filterValuesOf ds) r = true :=
    fun r h => isVisible_of_infix _ _ _ r hsub h
  have hcount : rs.countP (isVisible (toLowerCase q') (filterValuesOf ds)) ≤
      rs.countP (isVisible (toLowerCase q) (filterValuesOf ds)) :=
    List.countP_mono_left (fun r _ h => hmono r h)
  refine ⟨?_, ?_, ?_⟩
  · intro i
    by_cases hi : i < rs.length
    · rw [displayOf_filterResults _ rs (hs q') i hi, displayOf_filterResults _ rs (hs q) i hi,
        shown_iff, shown_iff, hst, hst, hfv, hfv]
      exact hmono _
    · intro h
      exfalso
      unfold DirectorySearch.displayOf at h
      rw [filterResults_originalResults _ rs (hs q')] at h
      simp [List.getElem?_eq_none (by simpa using hi)] at h
  · rw [shownCount_filterResults _ rs (hs q'), shownCount_filterResults _ rs (hs q), hst, hst,
      hfv, hfv]
    exact hcount
  · rw [filterLoop_eq, filterLoop_eq, hst, hst, hfv, hfv]
    simpa using hcount

theorem query_refinement_monotone_witness :
    ((∀ i, (filterResults ((bakeryPage "").withQuery "Sweet Rolls")).state.displayOf i = some "" →
        (filterResults ((bakeryPage "").withQuery "ROLL")).state.displayOf i = some "") ∧
      (filterResults ((bakeryPage "").withQuery "Sweet Rolls")).state.shownCount ≤
        (filterResults ((bakeryPage "").withQuery "ROLL")).state.shownCount ∧
      (filterLoop (searchTermOf ((bakeryPage "").withQuery "Sweet Rolls"))
          (filterValuesOf ((bakeryPage "").withQuery "Sweet Rolls"))
          (storeOriginalResults bakeryItems) 0).2 ≤
        (filterLoop (searchTermOf ((bakeryPage "").withQuery "ROLL"))
          (filterValuesOf ((bakeryPage "").withQuery "ROLL"))
          (storeOriginalResults bakeryItems) 0).2) ∧
    (filterResults ((bakeryPage "").withQuery "Sweet Rolls")).state.displayOf 0 = some "" :=
  ⟨query_refinement_monotone (bakeryPage "") (storeOriginalResults bakeryItems) "ROLL"
    "Sweet Rolls" rfl (by decide), by decide⟩

/-! ## The debounce timer -/

theorem inputAt_of_idle (s : Debounce) (t : Nat) (hidle : s.timers = []) (ht : s.clock ≤ t) :
    (inputAt s t).armedAt t ∧ (inputAt s t).passes = s.passes := by
  rcases s with ⟨c, ts, n, d, ps⟩
  simp only at hidle ht
  subst hidle
  refine ⟨⟨?_, n, ?_, ?_⟩, ?_⟩ <;>
    simp [inputAt, handleSearchInput, elapse, clearTimeout, setTimeout, ht]

theorem inputAt_of_armed (s : Debounce) (a gap : Nat) (h : s.armedAt a) (hgap : gap < 300) :
    (inputAt s (s.clock + gap)).armedAt (a + gap) ∧
      (inputAt s (s.clock + gap)).passes = s.passes := by
  rcases s with ⟨c, ts, n, d, ps⟩
  obtain ⟨hc, id, hts, hd⟩ := h
  simp only at hc hts hd
  subst hc hts hd
  have h1 : ¬ (c + 300 ≤ c + gap) := by omega
  refine ⟨⟨?_, n, ?_, ?_⟩, ?_⟩ <;>
    simp [inputAt, handleSearchInput, elapse, clearTimeout, setTimeout, h1]

theorem burst_of_armed (gaps : List Nat) :
    ∀ (s : Debounce) (a : Nat), s.armedAt a → (∀ gap ∈ gaps, gap < 300) →
      (burst s gaps).armedAt (a + gaps.sum) ∧ (burst s gaps).passes = s.passes := by
  induction gaps with
  | nil => intro s a h _; simpa [burst] using h
  | cons g gs ih =>
    intro s a h hg
    obtain ⟨h1, h2⟩ := inputAt_of_armed s a g h (hg g (List.mem_cons_self _ _))
    obtain ⟨h3, h4⟩ := ih (inputAt s (s.clock + g)) (a + g) h1
      (fun x hx => hg x (List.mem_cons_of_mem _ hx))
    have hb : burst s (g :: gs) = burst (inputAt s (s.clock + g)) gs := rfl
    rw [hb, List.sum_cons, ← Nat.add_assoc]
    exact ⟨h3, h4.trans h2⟩

theorem elapse_of_armed (s : Debounce) (a T : Nat) (h : s.armedAt a) :
    (T < a + 300 → (elapse s T).passes = s.passes ∧ (elapse s T).timers.length = 1) ∧
      (a + 300 ≤ T → (elapse s T).passes = s.passes ++ [a + 300] ∧ (elapse s T).timers = []) := by
  rcases s with ⟨c, ts, n, d, ps⟩
  obtain ⟨hc, id, hts, hd⟩ := h
  simp only at hc hts hd
  subst hc hts hd
  constructor
  · intro hT
    have h1 : ¬ (c + 300 ≤ T) := by omega
    simp [elapse, h1]
  · intro hT
    simp [elapse, hT]

theorem singleFlight_length (s : Debounce) (h : s.singleFlight) : s.timers.length ≤ 1 := by
  rcases h with h | ⟨id, due, h, _⟩ <;> simp [h]

theorem elapse_singleFlight (s : Debounce) (t : Nat) (h : s.singleFlight) :
    (elapse s t).singleFlight := by
  rcases s with ⟨c, ts, n, d, ps⟩
  rcases h with h | ⟨id, due, h, hd⟩
  · simp only at h
    subst h
    left
    simp [elapse]
  · simp only at h hd
    subst h hd
    by_cases hdue : due ≤ t
    · left
      simp [elapse, hdue]
    · right
      exact ⟨id, due, by simp [elapse, hdue], rfl⟩

theorem handleSearchInput_singleFlight (s : Debounce) (h : s.singleFlight) :
    (handleSearchInput s).singleFlight := by
  rcases s with ⟨c, ts, n, d, ps⟩
  right
  refine ⟨n, c + 300, ?_, rfl⟩
  rcases h with h | ⟨id, due, h, hd⟩
  · simp only at h
    subst h
    simp [handleSearchInput, clearTimeout, setTimeout]
  · simp only at h hd
    subst h hd
    simp [handleSearchInput, clearTimeout, setTimeout]

theorem burst_singleFlight (gaps : List Nat) :
    ∀ s : Debounce, s.singleFlight → (burst s gaps).singleFlight := by
  induction gaps with
  | nil => intro s h; simpa [burst] using h
  | cons g gs ih =>
    intro s h
    have hb : burst s (g :: gs) = burst (inputAt s (s.clock + g)) gs := rfl
    rw [hb]
    exact ih _ (handleSearchInput_singleFlight _ (elapse_singleFlight _ _ h))

/-- C12. From a state with no timer pending, after an input event at time
`t` followed by further events each less than 300ms after the one before,
the timer callback runs `filterResults` exactly once, 300ms after the last
event: no pass has run at any time before that, one has run from then on and
no timer is left.  After every event of the burst and after any lapse of time
at most one timer is pending. -/
theorem debounce_single_flight (s : Debounce) (t : Nat) (gaps : List Nat)
    (hidle : s.timers = []) (ht : s.clock ≤ t) (hgaps : ∀ gap ∈ gaps, gap < 300) :
    (burst (inputAt s t) gaps).passes = s.passes ∧
      (∀ T, T < t + gaps.sum + 300 →
        (elapse (burst (inputAt s t) gaps) T).passes = s.passes) ∧
      (∀ T, t + gaps.sum + 300 ≤ T →
        (elapse (burst (inputAt s t) gaps) T).passes = s.passes ++ [t + gaps.sum + 300] ∧
          (elapse (burst (inputAt s t) gaps) T).timers = []) ∧
      ∀ k T, (burst (inputAt s t) (gaps.take k)).timers.length ≤ 1 ∧
        (elapse (burst (inputAt s t) (gaps.take k)) T).timers.length ≤ 1 := by
  obtain ⟨h1, h2⟩ := inputAt_of_idle s t hidle ht
  obtain ⟨h3, h4⟩ := burst_of_armed gaps (inputAt s t) t h1 hgaps
  refine ⟨h4.trans h2, ?_, ?_, ?_⟩
  · intro T hT
    rw [((elapse_of_armed _ _ T h3).1 hT).1, h4, h2]
  · intro T hT
    obtain ⟨e1, e2⟩ := (elapse_of_armed _ _ T h3).2 hT
    rw [e1, h4, h2]
    exact ⟨rfl, e2⟩
  · intro k T
    have hsf : (inputAt s t).singleFlight :=
      handleSearchInput_singleFlight _ (elapse_singleFlight _ _ (Or.inl hidle))
    have hb := burst_singleFlight (gaps.take k) _ hsf
    exact ⟨singleFlight_length _ hb, singleFlight_length _ (elapse_singleFlight _ T hb)⟩

theorem debounce_single_flight_witness :
    ((burst (inputAt (Debounce.fresh 1000) 1000) [50, 60, 20, 299]).passes =
        (Debounce.fresh 1000).passes ∧
      (∀ T, T < 1000 + [50, 60, 20, 299].sum + 300 →
        (elapse (burst (inputAt (Debounce.fresh 1000) 1000) [50, 60, 20, 299]) T).passes =
          (Debounce.fresh 1000).passes) ∧
      (∀ T, 1000 + [50, 60, 20, 299].sum + 300 ≤ T →
        (elapse (burst (inputAt (Debounce.fresh 1000) 1000) [50, 60, 20, 299]) T).passes =
            (Debounce.fresh 1000).passes ++ [1000 + [50, 60, 20, 299].sum + 300] ∧
          (elapse (burst (inputAt (Debounce.fresh 1000) 1000) [50, 60, 20, 299]) T).timers = []) ∧
      ∀ k T, (burst (inputAt (Debounce.fresh 1000) 1000) ([50, 60, 20, 299].take k)).timers.length
            ≤ 1 ∧
        (elapse (burst (inputAt (Debounce.fresh 1000) 1000) ([50, 60, 20, 299].take k))
          T).timers.length ≤ 1) ∧
    (elapse (burst (inputAt (Debounce.fresh 1000) 1000) [50, 60, 20, 299]) 5000).passes = [1729] ∧
    (elapse (burst (inputAt (Debounce.fresh 1000) 1000) [50, 400, 20]) 5000).passes =
      [1350, 1770] :=
  ⟨debounce_single_flight (Debounce.fresh 1000) 1000 [50, 60, 20, 299] rfl (Nat.le_refl _)
    (by decide), by decide, by decide⟩

/-! ## The suggestions of SearchAutocomplete -/

/-- What `handleInput` does when the pattern of the input value compiles:
nothing shown for a value of fewer than two code units or without a match,
otherwise the first five matching candidates, in list order, duplicates
kept. -/
theorem handleInput_of_compiles [JsEngine] (regExpCompiles : String → Bool) (sa : SearchAutocomplete)
    (hre : regExpCompiles ("(" ++ sa.inputValue ++ ")") = true) :
    (handleInput regExpCompiles sa).error = none ∧
      (handleInput regExpCompiles sa).state.suggestionsList =
        (if jsLength (toLowerCase sa.inputValue) < 2 ∨
            sa.suggestions.filter
              (fun item => includes (toLowerCase item) (toLowerCase sa.inputValue)) = [] then
          { sa.suggestionsList with display := "none" }
        else
          { items := (sa.suggestions.filter
              (fun item => includes (toLowerCase item) (toLowerCase sa.inputValue))).take 5
            display := "block" }) := by
  unfold handleInput
  by_cases hlen : jsLength (toLowerCase sa.inputValue) < 2
  · simp [hlen, hideSuggestions]
  · generalize hm : sa.suggestions.filter
        (fun item => includes (toLowerCase item) (toLowerCase sa.inputValue)) = found
    cases found with
    | nil => simp [hlen, hm, hideSuggestions]
    | cons x xs => simp [hlen, hm, showSuggestions, hre]

/-- C13, at a concrete input.  The candidates `C++`, `Objective-C++`,
`c++ (embedded)`, `C++`, `Modern C++` are the first five that contain `c++`,
and `handleInput` hands them to `showSuggestions`; when the engine rejects the
pattern `(c++)` built from the input value, the call raises a SyntaxError and
the suggestions element is left as it was, nothing shown. -/
theorem suggestions_lost_on_pattern_error (regExpCompiles : String → Bool)
    (hre : regExpCompiles "(c++)" = false) :
    ((skillBox "c++").suggestions.filter
        (fun item => includes (toLowerCase item) (toLowerCase "c++"))).take 5 =
      ["C++", "Objective-C++", "c++ (embedded)", "C++", "Modern C++"] ∧
    (handleInput regExpCompiles (skillBox "c++")).error = some JsError.syntaxError ∧
    (handleInput regExpCompiles (skillBox "c++")).state.suggestionsList =
      { items := [], display := "" } := by
  refine ⟨by decide, ?_, ?_⟩
  · have h : ("(" ++ (skillBox "c++").inputValue ++ ")") = "(c++)" := by decide
    have h5 : ((skillBox "c++").suggestions.filter
        (fun item => includes (toLowerCase item) (toLowerCase (skillBox "c++").inputValue))).take 5
        = ["C++", "Objective-C++", "c++ (embedded)", "C++", "Modern C++"] := by decide
    have hl : ¬ jsLength (toLowerCase (skillBox "c++").inputValue) < 2 := by decide
    simp only [handleInput, hl, h5, showSuggestions, h, hre]
    decide
  · have h : ("(" ++ (skillBox "c++").inputValue ++ ")") = "(c++)" := by decide
    have h5 : ((skillBox "c++").suggestions.filter
        (fun item => includes (toLowerCase item) (toLowerCase (skillBox "c++").inputValue))).take 5
        = ["C++", "Objective-C++", "c++ (embedded)", "C++", "Modern C++"] := by decide
    have hl : ¬ jsLength (toLowerCase (skillBox "c++").inputValue) < 2 := by decide
    simp only [handleInput, hl, h5, showSuggestions, h, hre]
    decide

theorem suggestions_lost_on_pattern_error_witness :
    ((skillBox "c++").suggestions.filter
        (fun item => includes (toLowerCase item) (toLowerCase "c++"))).take 5 =
      ["C++", "Objective-C++", "c++ (embedded)", "C++", "Modern C++"] ∧
    (handleInput (fun source => source != "(c++)") (skillBox "c++")).error =
      some JsError.syntaxError ∧
    (handleInput (fun source => source != "(c++)") (skillBox "c++")).state.suggestionsList =
      { items := [], display := "" } :=
  suggestions_lost_on_pattern_error (fun source => source != "(c++)") (by decide)

/-! ## Theme toggling -/

/-- C14. `toggleTheme` and `toggleThemeGuest` return `dark` when the current
`data-theme` is `light` and `light` otherwise, set `data-theme` to the value
returned, and `toggleThemeGuest` stores that value under the `theme` key;
from a current theme of `light` or `dark`, two toggles give the theme back. -/
theorem toggle_theme_involution (s : ThemeState) :
    (toggleTheme s).2 = (if s.dataTheme = some "light" then "dark" else "light") ∧
      (toggleTheme s).1.dataTheme = some (toggleTheme s).2 ∧
      (toggleTheme s).1.storedTheme = s.storedTheme ∧
      (toggleThemeGuest s).2 = (if s.dataTheme = some "light" then "dark" else "light") ∧
      (toggleThemeGuest s).1.dataTheme = some (toggleThemeGuest s).2 ∧
      (toggleThemeGuest s).1.storedTheme = some (toggleThemeGuest s).2 ∧
      ((s.dataTheme = some "light" ∨ s.dataTheme = some "dark") →
        (toggleTheme (toggleTheme s).1).1.dataTheme = s.dataTheme ∧
          (toggleThemeGuest (toggleThemeGuest s).1).1.dataTheme = s.dataTheme ∧
          (toggleThemeGuest (toggleThemeGuest s).1).1.storedTheme = s.dataTheme) := by
  refine ⟨rfl, rfl, rfl, rfl, rfl, rfl, ?_⟩
  intro h
  rcases s with ⟨d, i, l, st⟩
  simp only at h
  rcases h with h | h <;> subst h <;> simp [toggleTheme, toggleThemeGuest, updateThemeIcon]

theorem toggle_theme_involution_witness :
    (toggleTheme ⟨some "dark", ["☀️"], ["Light"], none⟩).2 = "light" ∧
    (toggleTheme (toggleTheme ⟨some "dark", ["☀️"], ["Light"], none⟩).1).1.dataTheme =
      some "dark" ∧
    (toggleThemeGuest (toggleThemeGuest ⟨some "dark", ["☀️"], ["Light"], none⟩).1).1.storedTheme =
      some "dark" :=
  have h := toggle_theme_involution ⟨some "dark", ["☀️"], ["Light"], none⟩
  ⟨h.1, (h.2.2.2.2.2.2 (Or.inr rfl)).1, (h.2.2.2.2.2.2 (Or.inr rfl)).2.2⟩

/-! ## FormValidator.validateField -/

theorem showFieldError_shown (field : Field) (message : String) :
    (showFieldError field message).errorsAfter.head? = some message ∧
      (showFieldError field message).inputError = true := by
  simp [showFieldError]

/-- C15. With `v` the trimmed value, `validateField` returns false exactly
when the field is required and `v` is empty, or a minlength is present and
the length of `v` is below it, or a maxlength is present and the length of `v`
is above it; the message placed after the field is the one of the first of
the three checks that fails, in that order. -/
theorem validateField_spec (field : Field) :
    ((validateField field).2 = false ↔
      (field.required = true ∧ trim field.value = "") ∨
        (∃ n : Int, field.minlength = some (some n) ∧ (jsLength (trim field.value) : Int) < n) ∨
        (∃ n : Int, field.maxlength = some (some n) ∧ (jsLength (trim field.value) : Int) > n)) ∧
      ((field.required = true ∧ trim field.value = "") →
        (validateField field).1.errorsAfter.head? = some "This field is required.") ∧
      (∀ n : Int, ¬ (field.required = true ∧ trim field.value = "") →
        field.minlength = some (some n) → (jsLength (trim field.value) : Int) < n →
        (validateField field).1.errorsAfter.head? =
          some ("Minimum " ++ toString n ++ " characters required.")) ∧
      (∀ n : Int, ¬ (field.required = true ∧ trim field.value = "") →
        ¬ (∃ k : Int, field.minlength = some (some k) ∧
          (jsLength (trim field.value) : Int) < k) →
        field.maxlength = some (some n) → (jsLength (trim field.value) : Int) > n →
        (validateField field).1.errorsAfter.head? =
          some ("Maximum " ++ toString n ++ " characters allowed.")) := by
  rcases field with ⟨value, required, minlength, maxlength, ie, eb, ea⟩
  simp only [validateField, validateMaximum]
  by_cases h1 : required = true ∧ trim value = ""
  · obtain ⟨hr, hv⟩ := h1
    simp [hr, hv, (showFieldError_shown _ _).1]
  · have h1' : (required && trim value == "") = false := by
      cases required <;> simp_all
    simp only [h1', Bool.false_eq_true, if_false, h1, false_or, not_false_eq_true,
      forall_true_left, false_implies, true_and]
    rcases minlength with _ | _ | m <;> rcases maxlength with _ | _ | x <;>
      simp [lengthBelow, lengthAbove, numberText, (showFieldError_shown _ _).1] <;>
      (try split_ifs) <;> simp_all [(showFieldError_shown _ _).1]

theorem validateField_spec_witness :
    (validateField (nameField "  ab \n")).2 = false ∧
    (validateField (nameField "  ab \n")).1.errorsAfter =
      ["Minimum 3 characters required."] ∧
    (validateField (nameField "   ")).1.errorsAfter.head? = some "This field is required." ∧
    (validateField (nameField " abcdef ")).1.errorsAfter.head? =
      some "Maximum 5 characters allowed." ∧
    (validateField (nameField " abcde ")) =
      ({ nameField " abcde " with errorsAfter := [] }, true) :=
  ⟨((validateField_spec (nameField "  ab \n")).1).2 (Or.inr (Or.inl ⟨3, rfl, by decide⟩)),
    by decide, by decide, by decide, by decide⟩

/-! ## FileUploadValidator -/

theorem secondPiece_of_slash (l : List Char) (h : '/' ∈ l) : ∃ piece, secondPiece l = some piece := by
  induction l with
  | nil => simp at h
  | cons c cs ih =>
    by_cases hc : c = '/'
    · exact ⟨cs.takeWhile (fun d => d != '/'), by simp [secondPiece, hc]⟩
    · have hcs : '/' ∈ cs := by
        rcases List.mem_cons.1 h with h | h
        · exact absurd h.symm hc
        · exact h
      obtain ⟨piece, hp⟩ := ih hcs
      exact ⟨piece, by simp [secondPiece, hc, hp]⟩

theorem allowedNames_of_slash (types : List String) (h : ∀ t ∈ types, '/' ∈ t.data) :
    ∃ names, allowedNames types = some names := by
  induction types with
  | nil => exact ⟨[], rfl⟩
  | cons t ts ih =>
    obtain ⟨piece, hp⟩ := secondPiece_of_slash t.data (h t (List.mem_cons_self _ _))
    obtain ⟨names, hn⟩ := ih (fun x hx => h x (List.mem_cons_of_mem _ hx))
    exact ⟨String.mk (piece.map Char.toUpper) :: names, by simp [allowedNames, hp, hn]⟩

/-- For a chosen file, a numeric maximum size and allowed types that each
hold a slash, `validateFile` completes; it returns false and empties the
value of the input when the file is larger than the maximum size or its type
is not among the allowed types, with the size message when the file is too
large; otherwise it returns true and leaves the value of the input alone.  A
file exactly as large as the maximum size, of an allowed type, is accepted. -/
theorem validateFile_spec (v : FileUploadValidator) (file : UploadFile)
    (others : List UploadFile) (maxSize : Nat) (types : List String)
    (hfile : v.input.files = file :: others)
    (hmax : v.options.maxSize = some maxSize)
    (htypes : v.options.allowedTypes = some types)
    (hmime : ∀ t ∈ types, '/' ∈ t.data) :
    (validateFile v).error = none ∧
      ((maxSize < file.size ∨ file.type ∉ types) →
        (validateFile v).returned = some false ∧ (validateFile v).state.input.value = "") ∧
      (¬ (maxSize < file.size ∨ file.type ∉ types) →
        (validateFile v).returned = some true ∧
          (validateFile v).state.input.value = v.input.value) ∧
      (maxSize < file.size →
        (validateFile v).state.input.errorsAfter.head? = some (UploadMessage.tooLarge maxSize)) ∧
      (file.size = maxSize → file.type ∈ types → (validateFile v).returned = some true) := by
  obtain ⟨names, hn⟩ := allowedNames_of_slash types hmime
  rcases v with ⟨input, options⟩
  simp only at hfile hmax htypes
  by_cases hsize : maxSize < file.size
  · simp [validateFile, hfile, hmax, hsize, showError]
    omega
  · by_cases htype : file.type ∈ types
    · simp [validateFile, validateType, hfile, hmax, htypes, hsize, htype, clearError]
      split <;> rfl
    · simp [validateFile, validateType, hfile, hmax, htypes, hsize, htype, hn, showError]

theorem validateFile_spec_witness :
    (validateFile (newFileUploadValidator (logoInput ⟨5242880, "image/png"⟩) ⟨none, none⟩)).returned
      = some true ∧
    (validateFile (newFileUploadValidator (logoInput ⟨5242880, "image/png"⟩)
      ⟨none, none⟩)).state.input.value = "C:\\fakepath\\logo" ∧
    (validateFile (newFileUploadValidator (logoInput ⟨5242881, "text/plain"⟩)
      ⟨none, none⟩)).state.input.errorsAfter = [UploadMessage.tooLarge 5242880] ∧
    (validateFile (newFileUploadValidator (logoInput ⟨10, "text/plain"⟩)
      ⟨none, none⟩)).state.input.errorsAfter =
        [UploadMessage.invalidType "PNG, JPEG, JPG, GIF, WEBP"] ∧
    (validateFile (newFileUploadValidator (logoInput ⟨10, "text/plain"⟩)
      ⟨none, none⟩)).state.input.value = "" :=
  have h := validateFile_spec
    (newFileUploadValidator (logoInput ⟨5242880, "image/png"⟩) ⟨none, none⟩)
    ⟨5242880, "image/png"⟩ [] 5242880
    ["image/png", "image/jpeg", "image/jpg", "image/gif", "image/webp"] rfl rfl rfl (by decide)
  ⟨h.2.2.2.2 rfl (by decide), (h.2.2.1 (by decide)).2, by decide, by decide, by decide⟩

/-- What the object literal of the constructor gives: a key the argument
has keeps the value the argument holds, whatever it is, and a key the argument
lacks gets the default. -/
theorem effectiveOptions_spec (options : OptionsArgument) :
    (effectiveOptions options).maxSize =
        (match options.maxSize with
          | some held => held
          | none => some (5 * 1024 * 1024)) ∧
      (effectiveOptions options).allowedTypes =
        (match options.allowedTypes with
          | some held => held
          | none => some ["image/png", "image/jpeg", "image/jpg", "image/gif", "image/webp"]) := by
  rcases options with ⟨_ | _ | n, _ | _ | ts⟩ <;> simp [effectiveOptions]

/-- C17, at concrete arguments.  An argument that holds `maxSize: 0` leaves
the effective maximum size at 0, not at 5MB, so that a one-byte image is
refused; an argument that holds the two keys with value `undefined` leaves
both effective options undefined.  The defaults apply to absent keys only. -/
theorem explicit_falsy_options_kept :
    (effectiveOptions ⟨some (some 0), none⟩).maxSize = some 0 ∧
    (validateFile (newFileUploadValidator (logoInput ⟨1, "image/png"⟩)
      ⟨some (some 0), none⟩)).returned = some false ∧
    effectiveOptions ⟨some none, some none⟩ = ⟨none, none⟩ ∧
    effectiveOptions ⟨none, none⟩ =
      ⟨some 5242880, some ["image/png", "image/jpeg", "image/jpg", "image/gif", "image/webp"]⟩ ∧
    (effectiveOptions ⟨some (some 1024), some (some ["application/pdf"])⟩) =
      ⟨some 1024, some ["application/pdf"]⟩ := by
  decide

/-! ## Where the claims fail -/

/-- C18 as stated, at a concrete input.  The query `ΟΔΥΣ` is a substring of
the query `ΟΔΥΣΣΕΑΣ`, letter for letter; lower-casing turns the last sigma of
each into a final sigma, so the lower-cased short query is no substring of the
lower-cased long one, and the card shown by the pass for the long query is
hidden by the pass for the short one. -/
theorem query_refinement_fails_on_final_sigma :
    "ΟΔΥΣ".data <:+: "ΟΔΥΣΣΕΑΣ".data ∧
    toLowerCase "ΟΔΥΣ" = "οδυς" ∧
    toLowerCase "ΟΔΥΣΣΕΑΣ" = "οδυσσεας" ∧
    (filterResults (odysseyPage.withQuery "ΟΔΥΣΣΕΑΣ")).state.displayOf 0 = some "" ∧
    (filterResults (odysseyPage.withQuery "ΟΔΥΣ")).state.displayOf 0 = some "none" ∧
    (filterResults (odysseyPage.withQuery "ΟΔΥΣΣΕΑΣ")).state.shownCount = 1 ∧
    (filterResults (odysseyPage.withQuery "ΟΔΥΣ")).state.shownCount = 0 := by
  decide

/-- C9, at a concrete page.  The results area has no `.no-results-instant`
node and the `.results-info` element holds no `p`; the pass for a query that
matches no card hides every card, then `updateResultsCount` raises a
TypeError, `toggleNoResults` is never reached, and the results area is left
without a no-results node although no item is shown. -/
theorem no_results_block_lost_on_report_error :
    noParagraphPage.resultsContainer = some ⟨[]⟩ ∧
    (filterResults noParagraphPage).error = some JsError.typeError ∧
    (filterResults noParagraphPage).state.shownCount = 0 ∧
    (filterResults noParagraphPage).state.displayOf 0 = some "none" ∧
    (filterResults noParagraphPage).state.displayOf 1 = some "none" ∧
    (filterResults noParagraphPage).state.resultsContainer = some ⟨[]⟩ ∧
    (passes noParagraphPage [(some "zebra", []), (some "quagga", [])]).map
        (fun out => (out.error, out.state.shownCount, out.state.resultsContainer)) =
      [(some JsError.typeError, 0, some ⟨[]⟩), (some JsError.typeError, 0, some ⟨[]⟩)] := by
  decide

/-- C16, at a concrete validator.  The allowed types are `application/pdf`
and `text`, the chosen file is a small `image/png`: its type is not among the
allowed types, and building the message raises a TypeError at the type
without a slash, so `validateFile` returns nothing and the value of the input
is left as it was. -/
theorem validateFile_raises_on_type_without_slash :
    pdfOrTextValidator.options.allowedTypes = some ["application/pdf", "text"] ∧
    pdfOrTextValidator.input.files = [⟨10, "image/png"⟩] ∧
    (validateFile pdfOrTextValidator).error = some JsError.typeError ∧
    (validateFile pdfOrTextValidator).returned = none ∧
    (validateFile pdfOrTextValidator).state.input.value = "C:\\fakepath\\logo" ∧
    (validateFile pdfOrTextValidator).state.input.errorsAfter = [] := by
  decide

end CircleOne
